import Mathlib

/-!
Verification of the legislative HTML structural parser (`src/html_parser.py`).

The development shallowly embeds the module's core functions:
`normalize_hyphens`, `clean_html_for_embedding`, the marker patterns and the
scanner of `extract_html_sections`, `post_process_table_of_sections`,
`post_process_guides`, `get_structure_level` and `consolidate_to_sections`.

Conventions of the embedding:
* A top-level content node of the document body is abstracted as a `Node`
  carrying its tag name, its rendered text (`tag.get_text(" ", strip=True)`),
  its raw markup (`str(tag)`) and whether it contains an `<a id="_Toc...">`
  anchor (the result of the `tag.find('a', id=re.compile(r'^_Toc'))` query).
* Python dicts (insertion ordered, unique keys) are association lists with
  update-in-place / append-if-new semantics (`aupdate`), lookup of the first
  occurrence (`alookup`) and key deletion (`aerase`).
* The Python regexes are compiled by hand into deterministic matchers that
  reproduce the backtracking behaviour of `re` on the single-line texts the
  parser sees (node texts produced by `get_text(..., strip=True)`).
  Character classes are the ASCII readings of `\d`, `\w`, `[A-Z]` (the latter
  case-insensitive where the pattern carries `re.IGNORECASE`).
* BeautifulSoup calls (`get_text`, fragment parsing, `str(soup)`) are modelled
  on flat fragments of the form produced by this pipeline: a sequence of
  top-level elements separated by text nodes, with no nesting of same-named
  tags.
-/

set_option maxRecDepth 10000

namespace HtmlParser

/-- Python regex `\s` (plus the explicit ` ` the patterns add): ASCII
whitespace and the no-break space. -/
def isSpaceCh (c : Char) : Bool :=
  c = ' ' || c = '\t' || c = '\n' || c = '\r' || c = '\x0b' || c = '\x0c' || c = '\u00A0'

/-- Python regex `\d` on the ASCII texts the parser sees. -/
def isDigitCh (c : Char) : Bool :=
  '0' ≤ c && c ≤ '9'

/-- An ASCII letter: what `[A-Z]` accepts under `re.IGNORECASE`. -/
def isAsciiAlpha (c : Char) : Bool :=
  ('A' ≤ c && c ≤ 'Z') || ('a' ≤ c && c ≤ 'z')

/-- An ASCII uppercase letter: `[A-Z]` without `re.IGNORECASE`. -/
def isUpperCh (c : Char) : Bool :=
  'A' ≤ c && c ≤ 'Z'

/-- Python regex `\w` on ASCII text. -/
def isWordCh (c : Char) : Bool :=
  isAsciiAlpha c || isDigitCh c || c = '_'

/-- The character class of `normalize_hyphens`: `[‐‑‒–\-]`
(the code's comment notes that the em-dash `—` is deliberately excluded). -/
def isHyphenVariant (c : Char) : Bool :=
  c = '\u2010' || c = '\u2011' || c = '\u2012' || c = '\u2013' || c = '-'

/-- Replaces each maximal run of the listed hyphen variants by one `-`,
as `re.sub(r'[‐‑‒–\-]+', '-', text)` does.  The boolean
records whether the previous character belonged to a run being replaced. -/
def normHyphAux : Bool → List Char → List Char
  | _, [] => []
  | prev, c :: cs =>
    if isHyphenVariant c then
      if prev then normHyphAux true cs else '-' :: normHyphAux true cs
    else c :: normHyphAux false cs

/-- `normalize_hyphens` (html_parser.py, lines 12-18). -/
def normalize_hyphens (s : String) : String :=
  if s = "" then s else String.mk (normHyphAux false s.data)

/-- Python `sep.join(parts)`. -/
def pyjoin (sep : String) : List String → String
  | [] => ""
  | [x] => x
  | x :: y :: xs => x ++ sep ++ pyjoin sep (y :: xs)

/-- Python `s.split('-')` on the character list: split at every ASCII
hyphen (identifiers are hyphen-normalized before splitting). -/
def splitHyphens : List Char → List (List Char)
  | [] => [[]]
  | c :: cs =>
    if c = '-' then [] :: splitHyphens cs
    else
      match splitHyphens cs with
      | [] => [[c]]
      | g :: gs => (c :: g) :: gs

/-- Python `s.split('-')`. -/
def pysplitHyphen (s : String) : List String :=
  (splitHyphens s.data).map String.mk

/-- Python `s.lower()` on the ASCII texts the parser compares. -/
def pyToLower (s : String) : String :=
  String.mk (s.data.map Char.toLower)

/-- Python `str.strip()` on a character list. -/
def stripChars (cs : List Char) : List Char :=
  ((cs.dropWhile isSpaceCh).reverse.dropWhile isSpaceCh).reverse

/-- Python `str.strip()`. -/
def pystrip (s : String) : String :=
  String.mk (stripChars s.data)

/-- `re.sub(r'\s+', ' ', s)`: each maximal whitespace run becomes one space. -/
def squashAux : Bool → List Char → List Char
  | _, [] => []
  | prev, c :: cs =>
    if isSpaceCh c then
      if prev then squashAux true cs else ' ' :: squashAux true cs
    else c :: squashAux false cs

/-- The heading clean-up of the scanner (lines 158-159):
`heading.strip()` followed by `re.sub(r'\s+', ' ', heading).strip()`. -/
def cleanHeading (s : String) : String :=
  pystrip (String.mk (squashAux false (pystrip s).data))

/-- The maximal text runs lying outside `<...>` tag spans of a markup string:
the `NavigableString`s BeautifulSoup would yield on the flat fragments this
pipeline produces.  The boolean flag is "currently inside a tag". -/
def textRunsAux : List Char → Bool → List Char → List (List Char)
  | [], _, acc => if acc.isEmpty then [] else [acc.reverse]
  | c :: cs, true, acc =>
    if c = '>' then textRunsAux cs false acc else textRunsAux cs true acc
  | c :: cs, false, acc =>
    if c = '<' then
      if acc.isEmpty then textRunsAux cs true [] else acc.reverse :: textRunsAux cs true []
    else textRunsAux cs false (c :: acc)

def textRuns (cs : List Char) : List (List Char) :=
  textRunsAux cs false []

/-- `clean_html_for_embedding` (lines 20-32): image tags are removed (they
carry no text, so this leaves the text runs unchanged) and
`soup.get_text(separator=' ', strip=True)` joins the stripped non-empty text
runs with single spaces. -/
def clean_html_for_embedding (s : String) : String :=
  pyjoin " " ((((textRuns s.data).map stripChars).filter (· ≠ [])).map String.mk)

/-- Does the whole list match `\s+\d+` (the regex's trailing page-number
alternative, which must cover the entire remainder up to `$`)? -/
def isSpacesThenDigits (cs : List Char) : Bool :=
  let rest := cs.dropWhile isSpaceCh
  !(cs.takeWhile isSpaceCh).isEmpty && !rest.isEmpty && rest.all isDigitCh

/-- The lazy group `(.*?)` followed by `(?:\s+\d+)?$`: the shortest prefix
whose remainder is empty or a whitespace-then-digits page number. -/
def headingTake : List Char → List Char
  | [] => []
  | c :: cs => if isSpacesThenDigits (c :: cs) then [] else c :: headingTake cs

/-- Case-insensitive literal match (the patterns carry `re.IGNORECASE`).
Returns the consumed original characters (regex groups keep the source case)
and the rest. -/
def litCI : List Char → List Char → Option (List Char × List Char)
  | [], cs => some ([], cs)
  | _ :: _, [] => none
  | p :: ps, c :: cs =>
    if c.toLower = p then
      match litCI ps cs with
      | some (m, rest) => some (c :: m, rest)
      | none => none
    else none

def chapterKw : List Char := ['c', 'h', 'a', 'p', 't', 'e', 'r']
def partKw : List Char := ['p', 'a', 'r', 't']
def divisionKw : List Char := ['d', 'i', 'v', 'i', 's', 'i', 'o', 'n']
def subdivisionKw : List Char := ['s', 'u', 'b', 'd', 'i', 'v', 'i', 's', 'i', 'o', 'n']
def guideToKw : List Char := ['g', 'u', 'i', 'd', 'e', ' ', 't', 'o', ' ']
def strongOpenKw : List Char := ['<', 's', 't', 'r', 'o', 'n', 'g', '>']
def strongCloseKw : List Char := ['<', '/', 's', 't', 'r', 'o', 'n', 'g', '>']

/-- Greedy `\d{1,3}`: one to three digits (a fourth digit is left for the
rest of the pattern, exactly as the regex engine leaves it). -/
def takeDigits13 : List Char → Option (List Char × List Char)
  | [] => none
  | c :: rest =>
    if isDigitCh c then
      match rest with
      | [] => some ([c], [])
      | d :: rest2 =>
        if isDigitCh d then
          match rest2 with
          | [] => some ([c, d], [])
          | e :: rest3 =>
            if isDigitCh e then some ([c, d, e], rest3) else some ([c, d], rest2)
        else some ([c], rest)
    else none

/-- Greedy `[A-Z]?` under `re.IGNORECASE`. -/
def optAlpha : List Char → List Char × List Char
  | [] => ([], [])
  | c :: rest => if isAsciiAlpha c then ([c], rest) else ([], c :: rest)

/-- The id sub-pattern `\d{1,3}[A-Z]?` of the Chapter and Division patterns. -/
def idSimple (cs : List Char) : Option (List Char × List Char) :=
  match takeDigits13 cs with
  | none => none
  | some (ds, r) =>
    match optAlpha r with
    | (la, r2) => some (ds ++ la, r2)

/-- The id sub-pattern `\d{1,3}[A-Z]?-\d{1,3}[A-Z]?` of the Part and Section
patterns.  Since what follows the id group in those patterns matches any
remainder, the greedy-first parse is the one the regex engine commits to. -/
def idPair (cs : List Char) : Option (List Char × List Char) :=
  match idSimple cs with
  | none => none
  | some (a, r) =>
    match r with
    | '-' :: r1 =>
      match idSimple r1 with
      | none => none
      | some (b, r2) => some (a ++ '-' :: b, r2)
    | _ => none

/-- The id sub-pattern `\d{1,3}[A-Z]?-[A-Z]` of the Subdivision pattern:
exactly one letter is captured after the hyphen. -/
def idSubdiv (cs : List Char) : Option (List Char × List Char) :=
  match idSimple cs with
  | none => none
  | some (a, r) =>
    match r with
    | '-' :: c :: r2 => if isAsciiAlpha c then some (a ++ ['-', c], r2) else none
    | _ => none

/-- After the id group, the patterns read `(?:[^\w\s]|\s)*(.*?)(?:\s+\d+)?$`:
a greedy run of non-word characters, then the lazily shortest heading. -/
def sepHeading (r : List Char) : String :=
  String.mk (headingTake (r.dropWhile (fun c => !isWordCh c)))

/-- Common shape of the Chapter/Part/Division/Subdivision patterns:
`^\s*<keyword>[\s ]+(<id>)(?:[^\w\s]|\s)*(.*?)(?:\s+\d+)?$` with
`re.IGNORECASE`.  Returns the id group and the raw heading group. -/
def kwIdMatch (kw : List Char) (idp : List Char → Option (List Char × List Char))
    (cs : List Char) : Option (String × String) :=
  match litCI kw (cs.dropWhile isSpaceCh) with
  | none => none
  | some (_, r1) =>
    if (r1.takeWhile isSpaceCh).isEmpty then none
    else
      match idp (r1.dropWhile isSpaceCh) with
      | none => none
      | some (idcs, r2) => some (String.mk idcs, sepHeading r2)

def chapterMatch (cs : List Char) : Option (String × String) :=
  kwIdMatch chapterKw idSimple cs

def partMatch (cs : List Char) : Option (String × String) :=
  kwIdMatch partKw idPair cs

def divisionMatch (cs : List Char) : Option (String × String) :=
  kwIdMatch divisionKw idSimple cs

def subdivisionMatch (cs : List Char) : Option (String × String) :=
  kwIdMatch subdivisionKw idSubdiv cs

/-- The Section pattern
`^\s*(?:<strong>)?(\d{1,3}[A-Z]?-\d{1,3}[A-Z]?)(?:</strong>)?(?:[^\w\s]|\s)*(.*?)(?:\s+\d+)?$`.
The optional `<strong>` wrapper is tried first (greedy) and dropped on
failure, as the engine backtracks. -/
def sectionCore (r : List Char) : Option (String × String) :=
  match idPair r with
  | none => none
  | some (idcs, r2) =>
    match litCI strongCloseKw r2 with
    | some (_, r3) => some (String.mk idcs, sepHeading r3)
    | none => some (String.mk idcs, sepHeading r2)

def sectionMatch (cs : List Char) : Option (String × String) :=
  let cs1 := cs.dropWhile isSpaceCh
  match litCI strongOpenKw cs1 with
  | some (_, r) =>
    match sectionCore r with
    | some res => some res
    | none => sectionCore cs1
  | none => sectionCore cs1

/-- The alternation `(Division|Subdivision|Part|Chapter)` of the Guide
pattern, in source order; the group keeps the original casing. -/
def guideTypeMatch (r0 : List Char) : Option (List Char × List Char) :=
  match litCI divisionKw r0 with
  | some x => some x
  | none =>
    match litCI subdivisionKw r0 with
    | some x => some x
    | none =>
      match litCI partKw r0 with
      | some x => some x
      | none => litCI chapterKw r0

/-- Candidate parses of the Guide id `\d{1,3}[A-Z]?(?:-\d{1,3}[A-Z]?|-[A-Z])?`
in the regex engine's preference order.  The id is followed by a mandatory
`[\s ]+`, so the engine backtracks through these candidates until the
remainder starts with whitespace. -/
def guideIdCands (cs : List Char) : List (List Char × List Char) :=
  match idSimple cs with
  | none => []
  | some (a, r) =>
    match r with
    | '-' :: r1 =>
      (match takeDigits13 r1 with
       | some (d2, r2) =>
         (match optAlpha r2 with
          | ([l], r3) => [(a ++ '-' :: d2 ++ [l], r3), (a ++ '-' :: d2, r2)]
          | _ => [(a ++ '-' :: d2, r2)])
       | none => []) ++
      (match r1 with
       | c :: r2 => if isAsciiAlpha c then [(a ++ ['-', c], r2)] else []
       | [] => []) ++
      [(a, r)]
    | _ => [(a, r)]

/-- The Guide pattern
`^\s*Guide to (Division|Subdivision|Part|Chapter)[\s ]+(<id>)[\s ]+(.*?)(?:\s+\d+)?$`.
Returns (type group, id group, raw heading group). -/
def guideMatch (cs : List Char) : Option (String × String × String) :=
  match litCI guideToKw (cs.dropWhile isSpaceCh) with
  | none => none
  | some (_, r0) =>
    match guideTypeMatch r0 with
    | none => none
    | some (tcs, r1) =>
      if (r1.takeWhile isSpaceCh).isEmpty then none
      else
        match (guideIdCands (r1.dropWhile isSpaceCh)).find?
            (fun p => !(p.2.takeWhile isSpaceCh).isEmpty) with
        | none => none
        | some (idcs, r3) =>
          some (String.mk tcs, String.mk idcs,
            String.mk (headingTake (r3.dropWhile isSpaceCh)))

inductive MLevel
  | Chapter | Part | Division | Subdivision | Guide | Section
deriving DecidableEq, Repr

def levelName : MLevel → String
  | .Chapter => "Chapter"
  | .Part => "Part"
  | .Division => "Division"
  | .Subdivision => "Subdivision"
  | .Guide => "Guide"
  | .Section => "Section"

/-- Result of the pattern loop of `extract_html_sections` (lines 144-162):
the matched level, the Guide type group when the level is Guide, the id
group (group 2 for Guide, group 1 otherwise) and the cleaned heading
(group 3 for Guide, group 2 otherwise, stripped and whitespace-squashed). -/
structure Marker where
  level : MLevel
  guideType : Option String := none
  identifier : String
  heading : String
deriving DecidableEq, Repr

/-- The ordered pattern dictionary: Chapter, Part, Division, Subdivision,
Guide, Section; the first match wins.  Empty text matches nothing (the loop
is guarded by `if text:`). -/
def classifyText (text : String) : Option Marker :=
  if text = "" then none
  else
    match chapterMatch text.data with
    | some (id, hd) => some { level := .Chapter, identifier := id, heading := cleanHeading hd }
    | none =>
      match partMatch text.data with
      | some (id, hd) => some { level := .Part, identifier := id, heading := cleanHeading hd }
      | none =>
        match divisionMatch text.data with
        | some (id, hd) => some { level := .Division, identifier := id, heading := cleanHeading hd }
        | none =>
          match subdivisionMatch text.data with
          | some (id, hd) =>
            some { level := .Subdivision, identifier := id, heading := cleanHeading hd }
          | none =>
            match guideMatch text.data with
            | some (gt, id, hd) =>
              some { level := .Guide, guideType := some gt, identifier := id,
                     heading := cleanHeading hd }
            | none =>
              match sectionMatch text.data with
              | some (id, hd) =>
                some { level := .Section, identifier := id, heading := cleanHeading hd }
              | none => none

/-- `any(p.match(text) for p_name, p in patterns.items() if p_name != 'Section')`
(line 112): does any non-Section pattern match? -/
def nonSectionAny (text : String) : Bool :=
  (chapterMatch text.data).isSome || (partMatch text.data).isSome ||
    (divisionMatch text.data).isSome || (subdivisionMatch text.data).isSome ||
    (guideMatch text.data).isSome

/-- A top-level content node of the document body.  `hasName` models
`hasattr(tag, 'name')` (false for bare strings, which the loop skips),
`text` is `tag.get_text(" ", strip=True)`, `html` is `str(tag)` and
`hasTocAnchor` the result of `tag.find('a', id=re.compile(r'^_Toc'))`. -/
structure Node where
  hasName : Bool := true
  name : String
  text : String
  html : String
  hasTocAnchor : Bool := false
deriving DecidableEq, Repr

/-- One record of the sections dictionary.  Fields absent from the Python
dict are `none` / the `Option` default. -/
structure SectionInfo where
  structure_type : String
  heading_text : String
  guide_target_type : Option String := none
  full_id : Option String := none
  primary_id : Option String := none
  secondary_id : Option String := none
  html : Option String := none
  text_for_embedding : Option String := none
  char_count : Option Nat := none
deriving DecidableEq, Repr

/-- The sections dictionary: an insertion-ordered association list. -/
abbrev AList := List (String × SectionInfo)

def alookup (d : AList) (k : String) : Option SectionInfo :=
  match d with
  | [] => none
  | (k', v) :: rest => if k' = k then some v else alookup rest k

/-- `d[k] = v` on a dict: replace in place if the key exists, else append. -/
def aupdate (d : AList) (k : String) (v : SectionInfo) : AList :=
  if d.any (fun p => p.1 = k) then d.map (fun p => if p.1 = k then (k, v) else p)
  else d ++ [(k, v)]

/-- `del d[k]`. -/
def aerase (d : AList) (k : String) : AList :=
  d.filter (fun p => p.1 ≠ k)

/-- The loop state of `extract_html_sections` (lines 79-82): the dictionary
built so far, the ordered key list, `current_key` (`""` plays Python's falsy
`None`), the accumulated tags of the open record, and the two flags. -/
structure ScanState where
  sections : AList := []
  orderedKeys : List String := []
  currentKey : String := ""
  currentTags : List Node := []
  foundFirst : Bool := false
  inTable : Bool := false
deriving DecidableEq, Repr

def initState : ScanState := {}

/-- Finalization of the open record (lines 166-174 and 227-236): join the
accumulated tags' markup with newlines, recompute the cleaned text and the
character count, and store them on the record if it was initialized. -/
def finalizeCurrent (s : ScanState) : AList :=
  if s.currentKey ≠ "" ∧ s.currentTags ≠ [] then
    let htmlString := pyjoin "\n" (s.currentTags.map Node.html)
    let tfe := clean_html_for_embedding htmlString
    match alookup s.sections s.currentKey with
    | some info =>
      aupdate s.sections s.currentKey
        { info with html := some htmlString, char_count := some tfe.length,
                    text_for_embedding := some tfe }
    | none => s.sections
  else s.sections

/-- Opening a new record on a matched marker (lines 164-213): finalize the
previous record, build the key and the record's fields, register the key and
restart the accumulator with the matched tag. -/
def openNew (s : ScanState) (n : Node) (m : Marker) : ScanState :=
  let secs := finalizeCurrent s
  let identifier := m.identifier
  let newKey :=
    match m.level, m.guideType with
    | .Guide, some gt => "Guide to " ++ gt ++ "-" ++ identifier
    | _, _ => levelName m.level ++ "-" ++ identifier
  let info0 : SectionInfo :=
    { structure_type := levelName m.level, heading_text := m.heading,
      guide_target_type := if m.level = .Guide then m.guideType else none }
  let info :=
    if identifier ≠ "" then
      let parts := pysplitHyphen identifier
      { info0 with
        full_id := some identifier,
        primary_id := if parts.length > 0 then parts.head? else none,
        secondary_id := if parts.length > 1 then parts[1]? else none }
    else info0
  if newKey ≠ "" then
    { s with sections := aupdate secs newKey info,
             orderedKeys := s.orderedKeys ++ [newKey],
             currentKey := newKey, currentTags := [n], foundFirst := true }
  else
    { s with sections := secs, currentKey := newKey }

/-- The part of the loop body after the in-table branch (lines 126-224):
the table-of-sections entry check, then normal pattern matching. -/
def stepMain (s : ScanState) (n : Node) (text : String) : ScanState :=
  if ¬ s.inTable ∧ n.name = "p" ∧ pyToLower text = "table of sections" then
    if s.currentKey ≠ "" ∧ s.foundFirst then
      { s with inTable := true, currentTags := s.currentTags ++ [n] }
    else { s with inTable := true }
  else
    match classifyText text with
    | some m => openNew s n m
    | none =>
      if s.currentKey ≠ "" ∧ s.foundFirst then
        if (alookup s.sections s.currentKey).isSome then
          { s with currentTags := s.currentTags ++ [n] }
        else s
      else s

/-- One iteration of the scanner loop (lines 88-224). -/
def step (s : ScanState) (n : Node) : ScanState :=
  if ¬ n.hasName then s
  else
    let text := normalize_hyphens n.text
    if s.inTable then
      if n.hasTocAnchor || nonSectionAny text then
        stepMain { s with inTable := false } n text
      else if s.currentKey ≠ "" ∧ s.foundFirst then
        { s with currentTags := s.currentTags ++ [n] }
      else s
    else stepMain s n text

def scanNodes (nodes : List Node) : ScanState :=
  nodes.foldl step initState

/-- The dictionary and the ordered key list returned when the scanner runs
over the content tags of a non-empty document (lines 226-240). -/
def extractPair (nodes : List Node) : AList × List String :=
  ((finalizeCurrent (scanNodes nodes)), (scanNodes nodes).orderedKeys)

/-- The shape of `extract_html_sections`'s return value: a bare dict
(the `return {}` of line 49) or a (dict, ordered keys) pair (line 240). -/
inductive ExtractResult
  | bare (d : AList)
  | pair (d : AList) (orderedKeys : List String)
deriving DecidableEq, Repr

/-- `extract_html_sections` (lines 34-240).  A falsy `html_content`
(`None` or the empty string) is `none`; a truthy one is `some nodes`, the
list of top-level content tags of its parsed body. -/
def extract_html_sections (html_content : Option (List Node)) : ExtractResult :=
  match html_content with
  | none => .bare []
  | some nodes => .pair (extractPair nodes).1 (extractPair nodes).2

/-- `get_structure_level` (lines 464-474). -/
def get_structure_level (structure_type : String) : Nat :=
  if structure_type = "Chapter" then 1
  else if structure_type = "Part" then 2
  else if structure_type = "Division" then 3
  else if structure_type = "Subdivision" then 4
  else if structure_type = "Section" then 5
  else if structure_type = "Guide" then 0
  else 99

/-- `"\n".join(stack htmls) + "\n" + own html` with the empty-parent
degenerate case of line 515. -/
def combineParents (parents : List String) (h : String) : String :=
  let p := pyjoin "\n" parents
  if p ≠ "" then p ++ "\n" ++ h else h

/-- The consolidated record emitted for a Section (lines 518-530): the named
fields are copied, the html is the combined one, text and count recomputed;
`guide_target_type` is dropped (the code notes the loss). -/
def mkConsolidated (s : SectionInfo) (combined : String) : SectionInfo :=
  { structure_type := s.structure_type, heading_text := s.heading_text,
    full_id := s.full_id, primary_id := s.primary_id,
    secondary_id := s.secondary_id, guide_target_type := none,
    html := some combined,
    text_for_embedding := some (clean_html_for_embedding combined),
    char_count := some (clean_html_for_embedding combined).length }

/-- The loop of `consolidate_to_sections` (lines 488-533).  The stack keeps
its top at the head; `stack.dropWhile (lvl ≤ ·.1)` is the pop loop of line
500, and the bottom-to-top join of line 512 is the join of the reversed
stack. -/
def consolidateAux (d : AList) : List String → List (Nat × String) → AList → AList
  | [], _, final => final
  | key :: rest, stack, final =>
    match alookup d key with
    | none => consolidateAux d rest stack final
    | some s =>
      let lvl := get_structure_level s.structure_type
      let stack1 := stack.dropWhile (fun f => lvl ≤ f.1)
      if 1 ≤ lvl ∧ lvl ≤ 4 then
        consolidateAux d rest ((lvl, s.html.getD "") :: stack1) final
      else if lvl = 5 then
        consolidateAux d rest stack1
          (aupdate final key
            (mkConsolidated s (combineParents (stack1.reverse.map Prod.snd) (s.html.getD ""))))
      else consolidateAux d rest stack1 final

/-- `consolidate_to_sections` (lines 477-536). -/
def consolidate_to_sections (d : AList) (ok : List String) : AList :=
  consolidateAux d ok [] []

/-- The lookahead `(?=</[^>]+>\s*$)` of the guide-html cleanup (line 415):
the remainder is one closing tag (a non-empty run of non-`>` characters
between `</` and `>`) followed only by whitespace. -/
def lookaheadOk : List Char → Bool
  | '<' :: '/' :: rest =>
    !(rest.takeWhile (· ≠ '>')).isEmpty &&
      (match rest.dropWhile (· ≠ '>') with
       | '>' :: tail => tail.all isSpaceCh
       | _ => false)
  | _ => false

/-- One attempted match of `\s+\d+\s*` at the head of the list, subject to
the closing-tag lookahead.  The three greedy pieces cannot usefully
backtrack (a shorter run always puts a space/digit where the lookahead
needs `<`), so the greedy parse is the engine's.  Returns the suffix after
the matched text. -/
def matchWDW (cs : List Char) : Option (List Char) :=
  if (cs.takeWhile isSpaceCh).isEmpty then none
  else
    let afterW := cs.dropWhile isSpaceCh
    if (afterW.takeWhile isDigitCh).isEmpty then none
    else
      let afterD := afterW.dropWhile isDigitCh
      let rest := afterD.dropWhile isSpaceCh
      if lookaheadOk rest then some rest else none

/-- Left-to-right global substitution by the empty string, as `re.sub`
scans: try a match at each position, drop the matched text and resume after
it.  Fuel is the length of the list (every step consumes a character). -/
def subTNAux : Nat → List Char → List Char
  | 0, cs => cs
  | _ + 1, [] => []
  | fuel + 1, c :: cs =>
    match matchWDW (c :: cs) with
    | some rest => subTNAux fuel rest
    | none => c :: subTNAux fuel cs

/-- The guide-markup cleanup of `post_process_guides` (line 415):
`re.sub(r'\s+\d+\s*(?=</[^>]+>\s*$)', '', guide_html.strip())`. -/
def cleanGuideHtml (s : String) : String :=
  String.mk (subTNAux (pystrip s).data.length (pystrip s).data)

/-- Python `s.startswith(pre)`. -/
def pyStartsWith (s pre : String) : Bool :=
  pre.data.isPrefixOf s.data

/-- The merging loop of `post_process_guides` (lines 393-441): walk the
ordered keys pairwise; a `"Guide to "` key whose record and successor record
both exist gets its cleaned markup prepended to the successor (text and
count recomputed) and is marked for removal; a guide with no successor
record, or with empty markup, is marked for removal without merging.
Returns the updated dictionary and the keys to remove. -/
def guidesAux : AList → List String → List String → AList × List String
  | d, k1 :: k2 :: rest, acc =>
    if pyStartsWith k1 "Guide to " then
      match alookup d k1, alookup d k2 with
      | some guide, some target =>
        if guide.html.getD "" ≠ "" then
          let newHtml := cleanGuideHtml (guide.html.getD "") ++ "\n" ++ target.html.getD ""
          let tfe := clean_html_for_embedding newHtml
          guidesAux
            (aupdate d k2
              { target with html := some newHtml, text_for_embedding := some tfe,
                            char_count := some tfe.length })
            (k2 :: rest) (acc ++ [k1])
        else guidesAux d (k2 :: rest) (acc ++ [k1])
      | some _, none => guidesAux d (k2 :: rest) (acc ++ [k1])
      | none, _ => guidesAux d (k2 :: rest) acc
    else guidesAux d (k2 :: rest) acc
  | d, _, acc => (d, acc)

/-- `post_process_guides` (lines 383-452): run the merging loop over the
ordered keys, then delete the marked keys. -/
def post_process_guides (d : AList) (ok : List String) : AList :=
  ((guidesAux d ok []).2).foldl (fun dd k => aerase dd k) (guidesAux d ok []).1

/-- The two-node guide-merge example of the specification. -/
def exGuideNode : Node :=
  { name := "p", text := "Guide to Division 40-B Cost base 57",
    html := "<p><a id=\"_Toc201\"></a>Guide to Division 40-B Cost base 57</p>",
    hasTocAnchor := true }

def exS40105 : Node :=
  { name := "p", text := "40-105 Deduction rules",
    html := "<p><a id=\"_Toc202\"></a>40-105 Deduction rules</p>", hasTocAnchor := true }

def exGuideDoc : List Node := [exGuideNode, exS40105]

/-- Scanner output of the guide example, run through the guide merger. -/
def exGuideMerged : AList :=
  post_process_guides (extractPair exGuideDoc).1 (extractPair exGuideDoc).2


/-! ### Table-of-sections normalizer -/

/-- A node of a re-parsed markup fragment: a top-level element (tag name and
its full raw markup, open tag through matching close tag) or a bare text
node.  This models BeautifulSoup's parse of the flat fragments this pipeline
builds (`"\n"`-joined top-level elements, no nesting of same-named tags). -/
inductive SItem
  | tag (name : String) (raw : String)
  | txt (raw : String)
deriving DecidableEq, Repr

def rawOf : SItem → String
  | .tag _ raw => raw
  | .txt raw => raw

/-- Exact literal match (patterns without `re.IGNORECASE`). -/
def litEx : List Char → List Char → Option (List Char)
  | [], cs => some cs
  | _ :: _, [] => none
  | p :: ps, c :: cs => if c = p then litEx ps cs else none

/-- Split a list at the first occurrence of `pat`: the part before it and
the part after it (Python `find` / slicing). -/
def splitAtSub (pat : List Char) : List Char → Option (List Char × List Char)
  | [] => if pat.isEmpty then some ([], []) else none
  | c :: cs =>
    if pat.isPrefixOf (c :: cs) then some ([], (c :: cs).drop pat.length)
    else
      match splitAtSub pat cs with
      | some (pre, rest) => some (c :: pre, rest)
      | none => none

/-- Python `pat in s`. -/
def containsSub (s pat : String) : Bool :=
  (splitAtSub pat.data s.data).isSome

/-- Python `s.find(pat)` when the pattern occurs. -/
def firstIdx (s pat : String) : Option Nat :=
  (splitAtSub pat.data s.data).map (fun p => p.1.length)

def isTagNameCh (c : Char) : Bool :=
  isAsciiAlpha c || isDigitCh c

/-- Parse a flat markup fragment into top-level items, as `html.parser`
does on the fragments this pipeline produces: an element runs from its open
tag to the first matching close tag; a close tag with no open element is
dropped; an unclosed element is auto-closed at the end of input.  Fuel is
the length of the input. -/
def parseItems : Nat → List Char → List SItem
  | 0, _ => []
  | _ + 1, [] => []
  | fuel + 1, '<' :: '/' :: rest =>
    parseItems fuel ((rest.dropWhile (· ≠ '>')).drop 1)
  | fuel + 1, '<' :: rest =>
    let nm := rest.takeWhile isTagNameCh
    if nm.isEmpty then .txt "<" :: parseItems fuel rest
    else
      let close := '<' :: '/' :: (nm ++ ['>'])
      match splitAtSub close rest with
      | some (pre, after) =>
        .tag (String.mk nm) (String.mk ('<' :: pre ++ close)) :: parseItems fuel after
      | none => [.tag (String.mk nm) (String.mk ('<' :: rest ++ close))]
  | fuel + 1, c :: rest =>
    .txt (String.mk ((c :: rest).takeWhile (· ≠ '<')))
      :: parseItems fuel ((c :: rest).dropWhile (· ≠ '<'))

def parseHtmlItems (s : String) : List SItem :=
  parseItems s.data.length s.data

/-- `tag.get_text(strip=True)` (default empty separator): the stripped
non-empty text runs of the markup, concatenated. -/
def getTextStrip (raw : String) : String :=
  pyjoin "" ((((textRuns raw.data).map stripChars).filter (· ≠ [])).map String.mk)

/-- `clean_text_for_matching` (lines 255-257):
`' '.join(BeautifulSoup(text).stripped_strings)`. -/
def clean_text_for_matching (raw : String) : String :=
  pyjoin " " ((((textRuns raw.data).map stripChars).filter (· ≠ [])).map String.mk)

/-- The character class `[-‑]` (hyphen-minus or U+2011) of the reference
patterns of `post_process_table_of_sections` (lines 252-253). -/
def isRefDashCh (c : Char) : Bool :=
  c = '-' || c = '\u2011'

/-- Candidate parses of `\d+(?:[-‑]\d+)?[A-Z]?` (no IGNORECASE) at the head
of the list, in the engine's preference order; each with the remainder. -/
def refIdCands (cs : List Char) : List (List Char × List Char) :=
  match cs.takeWhile isDigitCh, cs.dropWhile isDigitCh with
  | [], _ => []
  | ds, r =>
    (match r with
     | c :: r1 =>
       if isRefDashCh c then
         match r1.takeWhile isDigitCh, r1.dropWhile isDigitCh with
         | [], _ => []
         | ds2, r2 =>
           (match r2 with
            | u :: r3 =>
              if isUpperCh u then [(ds ++ c :: ds2 ++ [u], r3), (ds ++ c :: ds2, r2)]
              else [(ds ++ c :: ds2, r2)]
            | [] => [(ds ++ c :: ds2, r2)])
       else []
     | [] => []) ++
    (match r with
     | u :: r1 => if isUpperCh u then [(ds ++ [u], r1)] else []
     | [] => []) ++
    [(ds, r)]

/-- `section_ref_pattern.match(cleaned)` (line 252): after the id, the
pattern needs `[\s\u00A0\t]+(.+?)(?:\s+\d+)?$`, which succeeds exactly when
the remainder starts with whitespace and has at least one more character.
Returns group 1. -/
def sectionRefMatch (cleaned : String) : Option String :=
  match (refIdCands (cleaned.data.dropWhile isSpaceCh)).find?
      (fun p => match p.2 with
        | c :: _ :: _ => isSpaceCh c
        | _ => false) with
  | some (id, _) => some (String.mk id)
  | none => none

def idTocLit : List Char := ['i', 'd', '=', '"', '_', 'T', 'o', 'c']
def closeALit : List Char := ['"', '>', '<', '/', 'a', '>']

/-- The optional group `(?:<a\s+id="_Toc[^"]+"></a>)?` of
`section_heading_pattern` (line 253), matched at the head. -/
def headingAnchorLit (cs : List Char) : Option (List Char) :=
  match cs with
  | '<' :: 'a' :: rest =>
    if (rest.takeWhile isSpaceCh).isEmpty then none
    else
      match litEx idTocLit (rest.dropWhile isSpaceCh) with
      | none => none
      | some r2 =>
        if (r2.takeWhile (· ≠ '"')).isEmpty then none
        else litEx closeALit (r2.dropWhile (· ≠ '"'))
  | _ => none

/-- `section_heading_pattern.search(html)` (line 306): the pattern is
anchored by `^`, so search succeeds only at position 0. -/
def sectionHeadingSearch (html : String) : Bool :=
  let cs := html.data.dropWhile isSpaceCh
  let after :=
    match headingAnchorLit cs with
    | some r => r.dropWhile isSpaceCh
    | none => cs
  ((refIdCands after).find?
      (fun p => match p.2 with
        | c :: _ :: _ => isSpaceCh c
        | _ => false)).isSome

/-- The title slice of lines 318-321: the raw markup after the first
occurrence of the id, stripped; emptied when it starts with `</p>`. -/
def titleFromHtml (html num : String) : String :=
  let start :=
    match firstIdx html num with
    | some i => i + num.data.length
    | none => num.data.length - 1
  let t := pystrip (String.mk (html.data.drop start))
  let t2 := if pyStartsWith t "</p>" then "" else t
  String.mk (t2.data.dropWhile isSpaceCh)

/-- `decode_contents()` of a parsed `p` element: the markup between the end
of the open tag and the final close tag. -/
def decodeContents (raw : String) : String :=
  let afterOpen := (raw.data.dropWhile (· ≠ '>')).drop 1
  String.mk (afterOpen.take (afterOpen.length - 4))

def findP (items : List SItem) : Option String :=
  items.findSome? (fun it =>
    match it with
    | .tag n raw => if n = "p" then some raw else none
    | .txt _ => none)

/-- One `<li>` of lines 338-358: `f"{num} {inner}"` re-parsed (stray close
tags dropped) inside a fresh `li`; a bare number when the title is empty. -/
def liRaw (num title : String) : String :=
  if title = "" then "<li>" ++ num ++ "</li>"
  else
    let inner :=
      match findP (parseHtmlItems title) with
      | some praw => decodeContents praw
      | none => title
    "<li>" ++ pyjoin "" ((parseHtmlItems (num ++ " " ++ inner)).map rawOf) ++ "</li>"

def nextTagIdxAux : List (Nat × SItem) → Option Nat
  | [] => none
  | (j, .tag _ _) :: _ => some j
  | _ :: rest => nextTagIdxAux rest

/-- `find_next_sibling()`: the index of the next tag item after `i`. -/
def nextTagIdx (items : List SItem) (i : Nat) : Option Nat :=
  nextTagIdxAux (items.enum.drop (i + 1))

/-- The sibling walk of lines 295-330: follow `p` siblings, stopping at a
non-`p` tag, at a paragraph passing the (position-0) heading check, or at
one failing the reference grammar; collect `(id, title)` pairs and the
indices of the absorbed paragraphs. -/
def walkRefs : Nat → List SItem → Option Nat → List (String × String) → List Nat →
    List (String × String) × List Nat
  | 0, _, _, refs, removed => (refs, removed)
  | _ + 1, _, none, refs, removed => (refs, removed)
  | fuel + 1, items, some j, refs, removed =>
    match items[j]? with
    | some (.tag nm raw) =>
      if nm = "p" then
        if sectionHeadingSearch raw && containsSub raw "<a id=\"_Toc" then (refs, removed)
        else
          match sectionRefMatch (clean_text_for_matching raw) with
          | some num =>
            walkRefs fuel items (nextTagIdx items j)
              (refs ++ [(num, titleFromHtml raw num)]) (removed ++ [j])
          | none => (refs, removed)
      else (refs, removed)
    | _ => (refs, removed)

def findHeaderIdxAux : List (Nat × SItem) → Option Nat
  | [] => none
  | (j, .tag nm raw) :: rest =>
    if nm = "p" && pyToLower (getTextStrip raw) = "table of sections" then some j
    else findHeaderIdxAux rest
  | _ :: rest => findHeaderIdxAux rest

/-- The per-record rewrite of `post_process_table_of_sections` (lines
272-378): find the "table of sections" paragraph, walk its reference
siblings; when at least one reference matched, build one `ul`, insert it
directly after the header, remove the absorbed paragraphs, and re-serialize;
otherwise leave the record untouched (`none`). -/
def processTable (html : String) : Option String :=
  let items := parseHtmlItems html
  match findHeaderIdxAux items.enum with
  | none => none
  | some ih =>
    match walkRefs items.length items (nextTagIdx items ih) [] [] with
    | ([], _) => none
    | (refs, removed) =>
      let ul := "<ul>" ++ pyjoin "" (refs.map (fun p => liRaw p.1 p.2)) ++ "</ul>"
      some (pyjoin "" ((items.enum.flatMap (fun p =>
        if removed.contains p.1 then []
        else if p.1 = ih then [p.2, SItem.tag "ul" ul] else [p.2])).map rawOf))

/-- `post_process_table_of_sections` (lines 242-381). -/
def post_process_table_of_sections (d : AList) (ok : List String) : AList :=
  ok.foldl (fun dd key =>
    match alookup dd key with
    | none => dd
    | some sec =>
      match sec.html with
      | none => dd
      | some h =>
        if h = "" then dd
        else
          match processTable h with
          | none => dd
          | some newHtml =>
            aupdate dd key
              { sec with html := some newHtml,
                         text_for_embedding := some (clean_html_for_embedding newHtml),
                         char_count := some (clean_html_for_embedding newHtml).length }) d

/-- The full processing chain of `__main__` (lines 586-598): extraction,
then — when both the dictionary and the key list are non-empty — table
normalization, guide merging and consolidation. -/
def pipelineRun (nodes : List Node) : AList :=
  let d := (extractPair nodes).1
  let ok := (extractPair nodes).2
  if d ≠ [] ∧ ok ≠ [] then
    consolidate_to_sections (post_process_guides (post_process_table_of_sections d ok) ok) ok
  else d

/-! ### Concrete inputs for the example-based claims -/

/-- The eight-node example document of the specification. -/
def exIntro : Node :=
  { name := "p", text := "Intro", html := "<p>Intro</p>" }

def exPart11 : Node :=
  { name := "p", text := "Part 1-1 General",
    html := "<p><a id=\"_Toc101\"></a>Part 1-1 General</p>", hasTocAnchor := true }

def exDiv1 : Node :=
  { name := "p", text := "Division 1 Preliminary",
    html := "<p><a id=\"_Toc102\"></a>Division 1 Preliminary</p>", hasTocAnchor := true }

def exS4025 : Node :=
  { name := "p", text := "40-25 Meaning of assessable income",
    html := "<p><a id=\"_Toc103\"></a>40-25 Meaning of assessable income</p>",
    hasTocAnchor := true }

def exBody : Node :=
  { name := "p", text := "Some body text", html := "<p>Some body text</p>" }

def exPart12 : Node :=
  { name := "p", text := "Part 1-2 Other",
    html := "<p><a id=\"_Toc104\"></a>Part 1-2 Other</p>", hasTocAnchor := true }

def exS4050 : Node :=
  { name := "p", text := "40-50 Other rule",
    html := "<p><a id=\"_Toc105\"></a>40-50 Other rule</p>", hasTocAnchor := true }

def exMore : Node :=
  { name := "p", text := "more text", html := "<p>more text</p>" }

def exampleNodes : List Node :=
  [exIntro, exPart11, exDiv1, exS4025, exBody, exPart12, exS4050, exMore]

/-- The result of scanning the example document and consolidating it
(`extract_html_sections` then `consolidate_to_sections`). -/
def exampleOut : AList :=
  consolidate_to_sections (extractPair exampleNodes).1 (extractPair exampleNodes).2

/-! ### Character-class facts -/

lemma isSpaceCh_cases (c : Char) (h : isSpaceCh c = true) :
    c = ' ' ∨ c = '\t' ∨ c = '\n' ∨ c = '\r' ∨ c = '\x0b' ∨ c = '\x0c' ∨ c = '\u00A0' := by
  simp only [isSpaceCh, Bool.or_eq_true, decide_eq_true_eq, or_assoc] at h
  exact h

lemma digit_not_space (c : Char) (h : isDigitCh c = true) : isSpaceCh c = false := by
  cases hc : isSpaceCh c
  · rfl
  · exfalso
    rcases isSpaceCh_cases c hc with h' | h' | h' | h' | h' | h' | h' <;>
      (subst h'; exact absurd h (by decide))

/-! ### C9: normalize_hyphens -/

/-- Every character of the output of `normHyphAux` is either the ASCII
hyphen-minus or a character that is not a hyphen variant. -/
lemma normHyphAux_mem : ∀ (cs : List Char) (b : Bool) (c : Char),
    c ∈ normHyphAux b cs → c = '-' ∨ isHyphenVariant c = false := by
  intro cs
  induction cs with
  | nil => intro b c h; simp [normHyphAux] at h
  | cons d ds ih =>
    intro b c h
    simp only [normHyphAux] at h
    by_cases hd : isHyphenVariant d = true
    · rw [if_pos hd] at h
      cases b with
      | true =>
        rw [if_pos rfl] at h
        exact ih true c h
      | false =>
        rw [if_neg (by decide)] at h
        rcases List.mem_cons.mp h with h1 | h1
        · exact Or.inl h1
        · exact ih true c h1
    · rw [if_neg hd] at h
      rcases List.mem_cons.mp h with h1 | h1
      · subst h1; exact Or.inr (Bool.not_eq_true _ ▸ hd)
      · exact ih false c h1

/-! ### Pattern-evaluation lemmas for the Subdivision grammar -/

lemma alpha_not_digit (c : Char) (h : isAsciiAlpha c = true) : isDigitCh c = false := by
  cases hd : isDigitCh c
  · rfl
  · exfalso
    simp only [isAsciiAlpha, Bool.or_eq_true, Bool.and_eq_true, decide_eq_true_eq] at h
    simp only [isDigitCh, Bool.and_eq_true, decide_eq_true_eq] at hd
    rcases h with ⟨h1, _⟩ | ⟨h1, _⟩
    · exact absurd (le_trans h1 hd.2) (by decide)
    · exact absurd (le_trans h1 hd.2) (by decide)

lemma chapterMatch_S (tail : List Char) : chapterMatch ('S' :: tail) = none := by
  have h1 : litCI chapterKw ('S' :: tail) = none := by
    simp only [chapterKw, litCI]
    exact if_neg (by decide)
  rw [chapterMatch, kwIdMatch, List.dropWhile_cons,
      if_neg (by decide : ¬(isSpaceCh 'S' = true)), h1]

lemma partMatch_S (tail : List Char) : partMatch ('S' :: tail) = none := by
  have h1 : litCI partKw ('S' :: tail) = none := by
    simp only [partKw, litCI]
    exact if_neg (by decide)
  rw [partMatch, kwIdMatch, List.dropWhile_cons,
      if_neg (by decide : ¬(isSpaceCh 'S' = true)), h1]

lemma divisionMatch_S (tail : List Char) : divisionMatch ('S' :: tail) = none := by
  have h1 : litCI divisionKw ('S' :: tail) = none := by
    simp only [divisionKw, litCI]
    exact if_neg (by decide)
  rw [divisionMatch, kwIdMatch, List.dropWhile_cons,
      if_neg (by decide : ¬(isSpaceCh 'S' = true)), h1]

lemma litCI_subdivision (tail : List Char) :
    litCI subdivisionKw ('S' :: 'u' :: 'b' :: 'd' :: 'i' :: 'v' :: 'i' :: 's' :: 'i' :: 'o' :: 'n'::tail)
      = some (['S','u','b','d','i','v','i','s','i','o','n'], tail) := rfl

lemma takeDigits13_exact (ds tail : List Char) (hds : ds ≠ []) (hlen : ds.length ≤ 3)
    (hdig : ds.all isDigitCh = true)
    (ht : ∀ c, tail.head? = some c → isDigitCh c = false) :
    takeDigits13 (ds ++ tail) = some (ds, tail) := by
  rcases ds with _ | ⟨a, _ | ⟨b, _ | ⟨c, _ | ⟨d, ds'⟩⟩⟩⟩
  · exact absurd rfl hds
  · simp only [List.all_cons, List.all_nil, Bool.and_eq_true] at hdig
    rcases htail : tail with _ | ⟨e, r⟩
    · simp [takeDigits13, hdig.1]
    · have he : isDigitCh e = false := ht e (by rw [htail]; rfl)
      simp [takeDigits13, hdig.1, he]
  · simp only [List.all_cons, List.all_nil, Bool.and_eq_true] at hdig
    rcases htail : tail with _ | ⟨e, r⟩
    · simp [takeDigits13, hdig.1, hdig.2.1]
    · have he : isDigitCh e = false := ht e (by rw [htail]; rfl)
      simp [takeDigits13, hdig.1, hdig.2.1, he]
  · simp only [List.all_cons, List.all_nil, Bool.and_eq_true] at hdig
    simp [takeDigits13, hdig.1, hdig.2.1, hdig.2.2.1]
  · simp at hlen

lemma idSimple_ds_la (ds la rest : List Char) (l : Char) (hds : ds ≠ [])
    (hlen : ds.length ≤ 3) (hdig : ds.all isDigitCh = true)
    (hla : la = [] ∨ ∃ c, la = [c] ∧ isAsciiAlpha c = true) :
    idSimple (ds ++ la ++ '-' :: l :: rest) = some (ds ++ la, '-' :: l :: rest) := by
  have htd : takeDigits13 (ds ++ la ++ '-' :: l :: rest) = some (ds, la ++ '-' :: l :: rest) := by
    rw [List.append_assoc]
    refine takeDigits13_exact ds _ hds hlen hdig ?_
    intro c hc
    rcases hla with rfl | ⟨c0, rfl, hc0⟩
    · simp only [List.nil_append, List.head?_cons, Option.some.injEq] at hc
      subst hc; decide
    · simp only [List.cons_append, List.head?_cons, Option.some.injEq] at hc
      subst hc; exact alpha_not_digit c0 hc0
  rw [idSimple, htd]
  rcases hla with rfl | ⟨c0, rfl, hc0⟩
  · simp [optAlpha, show isAsciiAlpha '-' = false from by decide]
  · simp [optAlpha, hc0]

lemma idSubdiv_exact (ds la rest : List Char) (l : Char) (hds : ds ≠ [])
    (hlen : ds.length ≤ 3) (hdig : ds.all isDigitCh = true)
    (hla : la = [] ∨ ∃ c, la = [c] ∧ isAsciiAlpha c = true)
    (hl : isAsciiAlpha l = true) :
    idSubdiv (ds ++ la ++ '-' :: l :: rest) = some ((ds ++ la) ++ ['-', l], rest) := by
  rw [idSubdiv, idSimple_ds_la ds la rest l hds hlen hdig hla]
  simp [hl]

lemma subdivisionMatch_eval (ds la rest : List Char) (l : Char) (hds : ds ≠ [])
    (hlen : ds.length ≤ 3) (hdig : ds.all isDigitCh = true)
    (hla : la = [] ∨ ∃ c, la = [c] ∧ isAsciiAlpha c = true)
    (hl : isAsciiAlpha l = true) :
    subdivisionMatch
        ('S' :: 'u' :: 'b' :: 'd' :: 'i' :: 'v' :: 'i' :: 's' :: 'i' :: 'o' :: 'n' :: ' '::(ds ++ la ++ '-' :: l :: rest))
      = some (String.mk ((ds ++ la) ++ ['-', l]), sepHeading rest) := by
  have hid := idSubdiv_exact ds la rest l hds hlen hdig hla hl
  rcases ds with _ | ⟨a, ds'⟩
  · exact absurd rfl hds
  · have ha : isSpaceCh a = false := by
      simp only [List.all_cons, Bool.and_eq_true] at hdig
      exact digit_not_space a hdig.1
    rw [subdivisionMatch, kwIdMatch, List.dropWhile_cons,
        if_neg (by decide : ¬(isSpaceCh 'S' = true)), litCI_subdivision]
    dsimp only
    rw [List.takeWhile_cons, if_pos (by decide : isSpaceCh ' ' = true)]
    rw [show (' ' :: ((a :: ds') ++ la ++ '-' :: l :: rest)).dropWhile isSpaceCh
          = ((a :: ds') ++ la ++ '-' :: l :: rest).dropWhile isSpaceCh from by
        rw [List.dropWhile_cons, if_pos (by decide)]]
    rw [show ((a :: ds') ++ la ++ '-' :: l :: rest).dropWhile isSpaceCh
          = (a :: ds') ++ la ++ '-' :: l :: rest from by
        simp only [List.cons_append]
        rw [List.dropWhile_cons, if_neg (by simp [ha])]]
    rw [hid]
    simp

/-! ### Dictionary lemmas -/


lemma alookup_of_not_any (d : AList) (k : String)
    (h : d.any (fun p => p.1 = k) = false) : alookup d k = none := by
  induction d with
  | nil => rfl
  | cons p ps ih =>
    simp only [List.any_cons, Bool.or_eq_false_iff, decide_eq_false_iff_not] at h
    rw [alookup, if_neg h.1]
    exact ih (by simpa using h.2)

lemma alookup_append (d e : AList) (k : String) :
    alookup (d ++ e) k = match alookup d k with
      | some v => some v
      | none => alookup e k := by
  induction d with
  | nil => rfl
  | cons p ps ih =>
    by_cases hp : p.1 = k
    · simp [alookup, hp]
    · simp [alookup, hp, ih]

lemma alookup_map_update_self (d : AList) (k : String) (v : SectionInfo)
    (h : d.any (fun p => p.1 = k) = true) :
    alookup (d.map (fun p => if p.1 = k then (k, v) else p)) k = some v := by
  induction d with
  | nil => simp at h
  | cons p ps ih =>
    by_cases hp : p.1 = k
    · simp only [List.map_cons, if_pos hp]
      rw [alookup, if_pos rfl]
    · simp only [List.any_cons, Bool.or_eq_true, decide_eq_true_eq] at h
      rcases h with h | h
      · exact absurd h hp
      · simp only [List.map_cons, if_neg hp]
        rw [alookup, if_neg hp]
        exact ih h

lemma alookup_map_update_ne (d : AList) (k k' : String) (v : SectionInfo)
    (h : k' ≠ k) :
    alookup (d.map (fun p => if p.1 = k then (k, v) else p)) k' = alookup d k' := by
  induction d with
  | nil => rfl
  | cons p ps ih =>
    by_cases hp : p.1 = k
    · simp only [List.map_cons, if_pos hp]
      rw [alookup, if_neg (fun hh => h hh.symm), alookup, if_neg (by rw [hp]; exact fun hh => h hh.symm)]
      exact ih
    · simp only [List.map_cons, if_neg hp]
      by_cases hp' : p.1 = k'
      · rw [alookup, if_pos hp', alookup, if_pos hp']
      · rw [alookup, if_neg hp', alookup, if_neg hp']
        exact ih

lemma alookup_aupdate_self (d : AList) (k : String) (v : SectionInfo) :
    alookup (aupdate d k v) k = some v := by
  rw [aupdate]
  by_cases h : d.any (fun p => p.1 = k)
  · rw [if_pos h]
    exact alookup_map_update_self d k v h
  · rw [if_neg h, alookup_append,
        alookup_of_not_any d k (Bool.eq_false_iff.mpr h)]
    rw [alookup, if_pos rfl]

lemma alookup_aupdate_ne (d : AList) (k k' : String) (v : SectionInfo) (h : k' ≠ k) :
    alookup (aupdate d k v) k' = alookup d k' := by
  rw [aupdate]
  by_cases ha : d.any (fun p => p.1 = k)
  · rw [if_pos ha]
    exact alookup_map_update_ne d k k' v h
  · rw [if_neg ha, alookup_append]
    cases hd : alookup d k' with
    | some v' => rfl
    | none =>
      rw [alookup, if_neg (fun hh : k = k' => h hh.symm)]
      rfl

lemma alookup_aupdate_isSome (d : AList) (k k2 : String) (v : SectionInfo)
    (h : (alookup d k).isSome = true) : (alookup (aupdate d k2 v) k).isSome = true := by
  by_cases hk : k = k2
  · subst hk; rw [alookup_aupdate_self]; rfl
  · rw [alookup_aupdate_ne d k2 k v hk]; exact h

lemma alookup_aerase_self (d : AList) (k : String) :
    alookup (aerase d k) k = none := by
  induction d with
  | nil => rfl
  | cons p ps ih =>
    by_cases hp : p.1 = k
    · simpa [aerase, hp] using ih
    · simpa [aerase, List.filter_cons, hp, alookup] using ih

lemma alookup_aerase_ne (d : AList) (k k' : String) (h : k' ≠ k) :
    alookup (aerase d k) k' = alookup d k' := by
  induction d with
  | nil => rfl
  | cons p ps ih =>
    by_cases hp : p.1 = k
    · rw [show aerase (p :: ps) k = aerase ps k from by simp [aerase, List.filter_cons, hp]]
      rw [alookup, if_neg (by rw [hp]; exact fun hh => h hh.symm)]
      exact ih
    · rw [show aerase (p :: ps) k = p :: aerase ps k from by simp [aerase, List.filter_cons, hp]]
      by_cases hp' : p.1 = k'
      · rw [alookup, if_pos hp', alookup, if_pos hp']
      · rw [alookup, if_neg hp', alookup, if_neg hp']
        exact ih

lemma alookup_none_aerase (d : AList) (k k' : String) (h : alookup d k = none) :
    alookup (aerase d k') k = none := by
  by_cases hk : k = k'
  · subst hk; exact alookup_aerase_self d k
  · rw [alookup_aerase_ne d k' k hk]; exact h

lemma foldl_aerase_none : ∀ (ks : List String) (d : AList) (k : String),
    alookup d k = none →
    alookup (ks.foldl (fun dd kk => aerase dd kk) d) k = none := by
  intro ks
  induction ks with
  | nil => intro d k h; exact h
  | cons a as ih =>
    intro d k h
    exact ih (aerase d a) k (alookup_none_aerase d k a h)

lemma foldl_aerase_mem : ∀ (ks : List String) (d : AList) (k : String), k ∈ ks →
    alookup (ks.foldl (fun dd kk => aerase dd kk) d) k = none := by
  intro ks
  induction ks with
  | nil => intro d k h; simp at h
  | cons a as ih =>
    intro d k h
    rcases List.mem_cons.mp h with rfl | h
    · exact foldl_aerase_none as (aerase d k) k (alookup_aerase_self d k)
    · exact ih (aerase d a) k h


lemma guidesAux_acc_sub : ∀ (ks : List String) (d : AList) (acc : List String) (k : String),
    k ∈ acc → k ∈ (guidesAux d ks acc).2 := by
  intro ks
  induction ks with
  | nil => intro d acc k h; exact h
  | cons k1 rest ih =>
    intro d acc k h
    cases rest with
    | nil => exact h
    | cons k2 rest' =>
      rw [guidesAux]
      by_cases hg : pyStartsWith k1 "Guide to "
      · rw [if_pos hg]
        cases h1 : alookup d k1 with
        | none =>
          cases h2 : alookup d k2 with
          | none => exact ih d acc k h
          | some target => exact ih d acc k h
        | some guide =>
          cases h2 : alookup d k2 with
          | none => exact ih d (acc ++ [k1]) k (List.mem_append_left _ h)
          | some target =>
            dsimp only
            by_cases hh : guide.html.getD "" ≠ ""
            · rw [if_pos hh]
              exact ih _ (acc ++ [k1]) k (List.mem_append_left _ h)
            · rw [if_neg hh]
              exact ih d (acc ++ [k1]) k (List.mem_append_left _ h)
      · rw [if_neg hg]
        exact ih d acc k h

lemma guidesAux_marks : ∀ (pre : List String) (ks : List String) (d : AList)
    (acc : List String) (k1 k2 : String) (post : List String),
    ks = pre ++ k1 :: k2 :: post →
    pyStartsWith k1 "Guide to " = true →
    (alookup d k1).isSome = true →
    k1 ∈ (guidesAux d ks acc).2 ∨ k1 ∈ acc := by
  intro pre
  induction pre with
  | nil =>
    intro ks d acc k1 k2 post hks hg hin
    subst hks
    simp only [List.nil_append]
    rw [guidesAux, if_pos hg]
    cases h1 : alookup d k1 with
    | none => rw [h1] at hin; simp at hin
    | some guide =>
      cases h2 : alookup d k2 with
      | none =>
        exact Or.inl (guidesAux_acc_sub _ _ _ k1
          (List.mem_append_right _ (List.mem_singleton.mpr rfl)))
      | some target =>
        dsimp only
        by_cases hh : guide.html.getD "" ≠ ""
        · rw [if_pos hh]
          exact Or.inl (guidesAux_acc_sub _ _ _ k1
            (List.mem_append_right _ (List.mem_singleton.mpr rfl)))
        · rw [if_neg hh]
          exact Or.inl (guidesAux_acc_sub _ _ _ k1
            (List.mem_append_right _ (List.mem_singleton.mpr rfl)))
  | cons p pre' ih =>
    intro ks d acc k1 k2 post hks hg hin
    subst hks
    simp only [List.cons_append]
    rcases hrest : pre' ++ k1 :: k2 :: post with _ | ⟨q, qs⟩
    · exact absurd hrest (by simp)
    · rw [guidesAux]
      by_cases hp : pyStartsWith p "Guide to "
      · rw [if_pos hp]
        cases h1 : alookup d p with
        | none =>
          rcases ih (q :: qs) d acc k1 k2 post hrest.symm hg hin with hL | hR
          · exact Or.inl hL
          · exact Or.inr hR
        | some guide =>
          cases h2 : alookup d q with
          | none =>
            rcases ih (q :: qs) d (acc ++ [p]) k1 k2 post hrest.symm hg hin with hL | hR
            · exact Or.inl hL
            · exact Or.inl (guidesAux_acc_sub _ _ _ _ hR)
          | some target =>
            dsimp only
            by_cases hh : guide.html.getD "" ≠ ""
            · rw [if_pos hh]
              rcases ih (q :: qs) _ (acc ++ [p]) k1 k2 post hrest.symm hg
                (alookup_aupdate_isSome d k1 q _ hin) with hL | hR
              · exact Or.inl hL
              · exact Or.inl (guidesAux_acc_sub _ _ _ _ hR)
            · rw [if_neg hh]
              rcases ih (q :: qs) d (acc ++ [p]) k1 k2 post hrest.symm hg hin with hL | hR
              · exact Or.inl hL
              · exact Or.inl (guidesAux_acc_sub _ _ _ _ hR)
      · rw [if_neg hp]
        rcases ih (q :: qs) d acc k1 k2 post hrest.symm hg hin with hL | hR
        · exact Or.inl hL
        · exact Or.inr hR


/-! ### Claim theorems: C5 -/

/-- C5 (counterexample): the merging loop runs over `range(len(ordered_keys) - 1)`,
so a Guide record that is the last record in document order is never examined:
scanning a document consisting of a single Guide node leaves the
`Guide to Division-40-B` key in the map, although the claim says a guide
whose target record is missing is dropped. -/
theorem c5_counterexample :
    (alookup (post_process_guides (extractPair [exGuideNode]).1 (extractPair [exGuideNode]).2)
        "Guide to Division-40-B").isSome = true := by
  decide

/-- C5 (amended): every record whose key starts with "Guide to " and that is
followed by at least one later key is deleted from the map by the guide
merger (whether merged or orphaned); a guide that is the last record in
document order is left untouched.  On the example
["Guide to Division 40-B Cost base 57", "40-105 Deduction rules"], the
"Guide to Division-40-B" key is gone, Section-40-105's html begins with the
guide's trailing-number-stripped markup, and its cleaned text and count are
recomputed from the merged markup. -/
theorem c5_guide_merge_amended :
    (∀ (d : AList) (pre post : List String) (k1 k2 : String),
        pyStartsWith k1 "Guide to " = true →
        (alookup d k1).isSome = true →
        alookup (post_process_guides d (pre ++ k1 :: k2 :: post)) k1 = none) ∧
    alookup exGuideMerged "Guide to Division-40-B" = none ∧
    (alookup exGuideMerged "Section-40-105").map SectionInfo.html
      = some (some ("<p><a id=\"_Toc201\"></a>Guide to Division 40-B Cost base</p>" ++ "\n"
          ++ exS40105.html)) ∧
    (alookup exGuideMerged "Section-40-105").map SectionInfo.text_for_embedding
      = some (some "Guide to Division 40-B Cost base 40-105 Deduction rules") := by
  refine ⟨?_, by decide, by decide, by decide⟩
  intro d pre post k1 k2 hg hin
  rw [post_process_guides]
  rcases guidesAux_marks pre (pre ++ k1 :: k2 :: post) d [] k1 k2 post rfl hg hin with h | h
  · exact foldl_aerase_mem _ _ _ h
  · simp at h

/-- Witness for C5 (amended) at the concrete guide example. -/
theorem c5_guide_merge_witness :
    pyStartsWith "Guide to Division-40-B" "Guide to " = true ∧
    alookup
      (post_process_guides (extractPair exGuideDoc).1
        (["Guide to Division-40-B", "Section-40-105"] : List String))
      "Guide to Division-40-B" = none :=
  ⟨by decide,
    c5_guide_merge_amended.1 (extractPair exGuideDoc).1 [] [] "Guide to Division-40-B"
      "Section-40-105" (by decide) (by decide)⟩

/-! ### Scanner and consolidator lemmas, claims C2, C3, C7 -/


lemma dropWhile_isSuffix {α : Type} (p : α → Bool) : ∀ (l : List α), l.dropWhile p <:+ l := by
  intro l
  induction l with
  | nil => exact List.suffix_refl _
  | cons a as ih =>
    rw [List.dropWhile_cons]
    by_cases h : p a
    · rw [if_pos h]
      exact ih.trans (List.suffix_cons a as)
    · rw [if_neg h]

lemma dropWhile_head_not {α : Type} (p : α → Bool) :
    ∀ (l : List α) (x : α), (l.dropWhile p).head? = some x → p x = false := by
  intro l
  induction l with
  | nil => intro x h; simp at h
  | cons a as ih =>
    intro x h
    by_cases ha : p a
    · rw [List.dropWhile_cons, if_pos ha] at h
      exact ih x h
    · rw [List.dropWhile_cons, if_neg ha, List.head?_cons, Option.some.injEq] at h
      subst h
      exact Bool.eq_false_iff.mpr ha

/-- The record `out` at key `k` of the consolidator output arises from the
record of `d` at `k`, seen through some strictly level-decreasing ancestor
stack (top at the head). -/
def consolidatedFrom (d : AList) (k : String) (out : SectionInfo) : Prop :=
  ∃ (rec : SectionInfo) (stack : List (Nat × String)),
    alookup d k = some rec ∧
    List.Chain' (fun a b => b.1 < a.1) stack ∧
    get_structure_level rec.structure_type = 5 ∧
    out = mkConsolidated rec (combineParents (stack.reverse.map Prod.snd) (rec.html.getD ""))

lemma consolidateAux_lookup : ∀ (ks : List String) (d : AList)
    (stack : List (Nat × String)) (final : AList),
    List.Chain' (fun a b => b.1 < a.1) stack →
    (∀ k out, alookup final k = some out → consolidatedFrom d k out) →
    ∀ k out, alookup (consolidateAux d ks stack final) k = some out →
      consolidatedFrom d k out := by
  intro ks
  induction ks with
  | nil => intro d stack final hchain hfinal k out h; exact hfinal k out h
  | cons key rest ih =>
    intro d stack final hchain hfinal k out h
    rw [consolidateAux] at h
    cases hkey : alookup d key with
    | none =>
      rw [hkey] at h
      exact ih d stack final hchain hfinal k out h
    | some s =>
      rw [hkey] at h
      dsimp only at h
      by_cases h14 : 1 ≤ get_structure_level s.structure_type ∧
          get_structure_level s.structure_type ≤ 4
      · rw [if_pos h14] at h
        refine ih d _ final ?_ hfinal k out h
        refine List.Chain'.cons' (hchain.suffix (dropWhile_isSuffix _ _)) ?_
        intro y hy
        have := dropWhile_head_not _ stack y hy
        simp only [decide_eq_false_iff_not, not_le] at this
        exact this
      · rw [if_neg h14] at h
        by_cases h5 : get_structure_level s.structure_type = 5
        · rw [if_pos h5] at h
          refine ih d _ _ (hchain.suffix (dropWhile_isSuffix _ _)) ?_ k out h
          intro k' out' h'
          by_cases hk : k' = key
          · subst hk
            rw [alookup_aupdate_self] at h'
            refine ⟨s, stack.dropWhile
                (fun f => get_structure_level s.structure_type ≤ f.1), hkey,
              hchain.suffix (dropWhile_isSuffix _ _), h5, ?_⟩
            exact (Option.some.injEq _ _ ▸ h').symm
          · rw [alookup_aupdate_ne _ _ _ _ hk] at h'
            exact hfinal k' out' h'
        · rw [if_neg h5] at h
          exact ih d _ final (hchain.suffix (dropWhile_isSuffix _ _)) hfinal k out h

/-- C3: every record emitted by the consolidator is built from the input
record at the same key and some ancestor stack whose levels are strictly
ascending (bottom to top); its html is the join of the ancestors' markup
followed by the record's own markup (hence ends with it verbatim), its
cleaned text and character count are recomputed from that combined markup,
and the five named fields are copied unchanged. -/
theorem c3_consolidator_shape (d : AList) (ok : List String) (k : String) (out : SectionInfo)
    (h : alookup (consolidate_to_sections d ok) k = some out) :
    ∃ (rec : SectionInfo) (parents : List (Nat × String)),
      alookup d k = some rec ∧
      List.Chain' (fun a b => a.1 < b.1) parents ∧
      out.structure_type = rec.structure_type ∧
      out.heading_text = rec.heading_text ∧
      out.full_id = rec.full_id ∧
      out.primary_id = rec.primary_id ∧
      out.secondary_id = rec.secondary_id ∧
      out.html = some (combineParents (parents.map Prod.snd) (rec.html.getD "")) ∧
      out.text_for_embedding = some (clean_html_for_embedding
        (combineParents (parents.map Prod.snd) (rec.html.getD ""))) ∧
      out.char_count = some (clean_html_for_embedding
        (combineParents (parents.map Prod.snd) (rec.html.getD ""))).length ∧
      ∃ pre, out.html = some (pre ++ rec.html.getD "") := by
  obtain ⟨rec, stack, hrec, hchain, h5, hout⟩ :=
    consolidateAux_lookup ok d [] [] List.chain'_nil
      (fun k' out' h' => by simp [alookup] at h') k out h
  subst hout
  refine ⟨rec, stack.reverse, hrec, List.chain'_reverse.mpr hchain,
    rfl, rfl, rfl, rfl, rfl, rfl, rfl, rfl, ?_⟩
  rw [combineParents]
  by_cases hp : pyjoin "\n" (stack.reverse.map Prod.snd) ≠ ""
  · rw [if_pos hp]
    exact ⟨pyjoin "\n" (stack.reverse.map Prod.snd) ++ "\n",
      by rw [String.append_assoc]; rfl⟩
  · rw [if_neg hp]
    exact ⟨"", rfl⟩

lemma openNew_ff (s : ScanState) (n : Node) (m : Marker) (h : s.foundFirst = true) :
    (openNew s n m).foundFirst = true := by
  rw [openNew]
  dsimp only
  split
  · rfl
  · exact h

lemma stepMain_ff (s : ScanState) (n : Node) (text : String) (h : s.foundFirst = true) :
    (stepMain s n text).foundFirst = true := by
  rw [stepMain]
  by_cases hc : ¬ s.inTable ∧ n.name = "p" ∧ pyToLower text = "table of sections"
  · rw [if_pos hc]
    by_cases hk : s.currentKey ≠ "" ∧ s.foundFirst
    · rw [if_pos hk]; exact h
    · rw [if_neg hk]; exact h
  · rw [if_neg hc]
    cases hm : classifyText text with
    | some m => exact openNew_ff s n m h
    | none =>
      dsimp only
      by_cases hk : s.currentKey ≠ "" ∧ s.foundFirst
      · rw [if_pos hk]
        split
        · exact h
        · exact h
      · rw [if_neg hk]; exact h

lemma step_ff (s : ScanState) (n : Node) (h : s.foundFirst = true) :
    (step s n).foundFirst = true := by
  rw [step]
  split
  · exact h
  · by_cases ht : s.inTable
    · rw [if_pos ht]
      split
      · exact stepMain_ff _ _ _ h
      · split
        · exact h
        · exact h
    · rw [if_neg ht]
      exact stepMain_ff _ _ _ h

lemma stepMain_preamble (b : Bool) (n : Node) (text : String) :
    (stepMain { initState with inTable := b } n text).foundFirst = true ∨
    ∃ b', stepMain { initState with inTable := b } n text = { initState with inTable := b' } := by
  rw [stepMain]
  by_cases hc : ¬ ({ initState with inTable := b } : ScanState).inTable ∧ n.name = "p" ∧
      pyToLower text = "table of sections"
  · rw [if_pos hc, if_neg (by simp [initState])]
    exact Or.inr ⟨true, rfl⟩
  · rw [if_neg hc]
    cases hm : classifyText text with
    | some m =>
      simp only [openNew]
      split
      · exact Or.inl rfl
      · next hnk =>
        rw [not_ne_iff] at hnk
        rw [hnk]
        exact Or.inr ⟨b, rfl⟩
    | none =>
      dsimp only
      rw [if_neg (by simp [initState])]
      exact Or.inr ⟨b, rfl⟩

lemma step_preamble (b : Bool) (n : Node) :
    (step { initState with inTable := b } n).foundFirst = true ∨
    ∃ b', step { initState with inTable := b } n = { initState with inTable := b' } := by
  rw [step]
  by_cases hn : n.hasName
  · rw [if_neg (by simp [hn])]
    cases b with
    | false =>
      rw [if_neg (by simp [initState])]
      exact stepMain_preamble false n _
    | true =>
      rw [if_pos (by simp [initState])]
      by_cases hx : n.hasTocAnchor || nonSectionAny (normalize_hyphens n.text)
      · rw [if_pos hx]
        exact stepMain_preamble false n _
      · rw [if_neg hx, if_neg (by simp [initState])]
        exact Or.inr ⟨true, rfl⟩
  · rw [if_pos (by simp [hn])]
    exact Or.inr ⟨b, rfl⟩

lemma foldl_step_ff : ∀ (l : List Node) (s : ScanState), s.foundFirst = true →
    (List.foldl step s l).foundFirst = true := by
  intro l
  induction l with
  | nil => intro s h; exact h
  | cons n rest ih => intro s h; exact ih (step s n) (step_ff s n h)

lemma scan_preamble : ∀ (l : List Node) (b : Bool),
    (List.foldl step { initState with inTable := b } l).foundFirst = false →
    List.foldl step { initState with inTable := b } l
      = { initState with
            inTable := (List.foldl step { initState with inTable := b } l).inTable } := by
  intro l
  induction l with
  | nil => intro b h; rfl
  | cons n rest ih =>
    intro b h
    rw [List.foldl_cons] at h ⊢
    rcases step_preamble b n with h1 | ⟨b', h1⟩
    · rw [foldl_step_ff rest _ h1] at h
      cases h
    · rw [h1] at h ⊢
      exact ih b' h

/-- C2: in table-of-sections mode, a node with no table-of-contents anchor
whose normalized text matches no non-Section pattern (even though it matches
the Section grammar) is appended to the open record's accumulator and the
scanner stays in table mode, with the dictionary, ordered keys and current
key untouched; a node carrying an anchor or matching a non-Section pattern
leaves table mode and is re-evaluated by the normal matching logic. -/
theorem c2_table_mode_transitions (s : ScanState) (n : Node) (hname : n.hasName = true)
    (htbl : s.inTable = true) :
    ((n.hasTocAnchor = false → nonSectionAny (normalize_hyphens n.text) = false →
      (sectionMatch (normalize_hyphens n.text).data).isSome = true →
      s.currentKey ≠ "" → s.foundFirst = true →
      step s n = { s with currentTags := s.currentTags ++ [n] }) ∧
     (n.hasTocAnchor = true ∨ nonSectionAny (normalize_hyphens n.text) = true →
      step s n = stepMain { s with inTable := false } n (normalize_hyphens n.text))) := by
  constructor
  · intro hanch hnons hsec hkey hff
    rw [step, if_neg (by simp [hname]), if_pos htbl,
        if_neg (by simp [hanch, hnons]), if_pos ⟨hkey, hff⟩]
  · intro hor
    rw [step, if_neg (by simp [hname]), if_pos htbl, if_pos (by
      rcases hor with h | h
      · simp [h]
      · simp [h])]

/-- C7: if scanning a prefix of the document has not yet recognized any
structural marker, the scanner's final output is a function of the remaining
nodes alone (up to the boolean table-of-sections flag): no node of that
prefix contributes to the html of any record. -/
theorem c7_preamble_discarded (pre post : List Node)
    (h : (List.foldl step initState pre).foundFirst = false) :
    extractPair (pre ++ post)
      = (finalizeCurrent (List.foldl step
            { initState with inTable := (List.foldl step initState pre).inTable } post),
         (List.foldl step
            { initState with inTable := (List.foldl step initState pre).inTable } post).orderedKeys) := by
  have h0 : List.foldl step initState pre
      = { initState with inTable := (List.foldl step initState pre).inTable } :=
    scan_preamble pre false h
  rw [extractPair, scanNodes, List.foldl_append, h0]


/-- State and node instantiating the table-of-sections transition. -/
def c2State : ScanState :=
  { sections := [("Division-40", { structure_type := "Division", heading_text := "Cost base" })],
    orderedKeys := ["Division-40"], currentKey := "Division-40",
    currentTags := [], foundFirst := true, inTable := true }

def c2Node : Node :=
  { name := "p", text := "40-25 Meaning of assessable income 12",
    html := "<p>40-25 Meaning of assessable income 12</p>" }

/-- Witness for C2 at a cross-reference line inside a table of sections. -/
theorem c2_table_mode_witness :
    c2Node.hasTocAnchor = false ∧
    nonSectionAny (normalize_hyphens c2Node.text) = false ∧
    (sectionMatch (normalize_hyphens c2Node.text).data).isSome = true ∧
    step c2State c2Node = { c2State with currentTags := c2State.currentTags ++ [c2Node] } :=
  ⟨rfl, by decide, by decide,
    (c2_table_mode_transitions c2State c2Node rfl rfl).1 rfl (by decide) (by decide)
      (by decide) rfl⟩

/-- A two-record dictionary instantiating the consolidator shape. -/
def c3PartRec : SectionInfo :=
  { structure_type := "Part", heading_text := "General", full_id := some "1-1",
    primary_id := some "1", secondary_id := some "1", html := some "<p>Part 1-1 General</p>" }

def c3SecRec : SectionInfo :=
  { structure_type := "Section", heading_text := "Meaning", full_id := some "40-25",
    primary_id := some "40", secondary_id := some "25", html := some "<p>40-25 Meaning</p>" }

def c3Demo : AList := [("Part-1-1", c3PartRec), ("Section-40-25", c3SecRec)]

def c3DemoKeys : List String := ["Part-1-1", "Section-40-25"]

def c3DemoOut : SectionInfo :=
  mkConsolidated c3SecRec (combineParents [c3PartRec.html.getD ""] (c3SecRec.html.getD ""))

/-- Witness for C3 at the two-record dictionary. -/
theorem c3_consolidator_witness :
    alookup (consolidate_to_sections c3Demo c3DemoKeys) "Section-40-25" = some c3DemoOut ∧
    (∃ (rec : SectionInfo) (parents : List (Nat × String)),
      alookup c3Demo "Section-40-25" = some rec ∧
      List.Chain' (fun a b => a.1 < b.1) parents ∧
      c3DemoOut.structure_type = rec.structure_type ∧
      c3DemoOut.heading_text = rec.heading_text ∧
      c3DemoOut.full_id = rec.full_id ∧
      c3DemoOut.primary_id = rec.primary_id ∧
      c3DemoOut.secondary_id = rec.secondary_id ∧
      c3DemoOut.html = some (combineParents (parents.map Prod.snd) (rec.html.getD "")) ∧
      c3DemoOut.text_for_embedding = some (clean_html_for_embedding
        (combineParents (parents.map Prod.snd) (rec.html.getD ""))) ∧
      c3DemoOut.char_count = some (clean_html_for_embedding
        (combineParents (parents.map Prod.snd) (rec.html.getD ""))).length ∧
      ∃ pre, c3DemoOut.html = some (pre ++ rec.html.getD "")) :=
  ⟨by decide, c3_consolidator_shape c3Demo c3DemoKeys "Section-40-25" c3DemoOut (by decide)⟩

/-- Witness for C7: an unrecognized introductory node is discarded. -/
theorem c7_preamble_witness :
    (List.foldl step initState [exIntro]).foundFirst = false ∧
    extractPair ([exIntro] ++ [exPart11])
      = (finalizeCurrent (List.foldl step
            { initState with inTable := (List.foldl step initState [exIntro]).inTable }
            [exPart11]),
         (List.foldl step
            { initState with inTable := (List.foldl step initState [exIntro]).inTable }
            [exPart11]).orderedKeys) :=
  ⟨by decide, c7_preamble_discarded [exIntro] [exPart11] (by decide)⟩

/-! ### Claim theorems: C1, C8, C9, C10 -/

/-- C1: on the eight-node example document (with table-of-contents anchors on
the Part/Division/Section headings), `extract_html_sections` followed by
`consolidate_to_sections` yields exactly the keys `Section-40-25` and
`Section-40-50`; the html of `Section-40-25` is precisely the Part 1-1
heading markup, the Division 1 heading markup, the 40-25 heading markup and
the body-text node, joined in that order; and no `Part-1-1` or `Division-1`
key survives. -/
theorem c1_example_pipeline :
    exampleOut.map Prod.fst = ["Section-40-25", "Section-40-50"] ∧
    (alookup exampleOut "Section-40-25").map SectionInfo.html
      = some (some (exPart11.html ++ "\n" ++ exDiv1.html ++ "\n" ++ exS4025.html ++ "\n"
          ++ exBody.html)) ∧
    alookup exampleOut "Part-1-1" = none ∧
    alookup exampleOut "Division-1" = none := by
  decide

/-- C8 (counterexample): the Subdivision pattern captures only
`\d{1,3}[A-Z]?-[A-Z]` — a single letter after the hyphen — so on
"Subdivision 40-BA Heading" (whose id "40-BA" matches the claimed grammar
`\d{1,3}[A-Z]?-[A-Z]+`) the classifier extracts "40-B", not the entire id;
the second letter leaks into the heading. -/
theorem c8_counterexample :
    classifyText "Subdivision 40-BA Heading"
      = some { level := .Subdivision, guideType := none, identifier := "40-B",
               heading := "A Heading" } ∧
    (classifyText "Subdivision 40-BA Heading").map Marker.identifier ≠ some "40-BA" := by
  decide

/-- C8 (amended): for every normalized text "Subdivision <id> ..." whose id
matches `\d{1,3}[A-Z]?-[A-Z]` with EXACTLY ONE capital letter after the
hyphen, the classifier recognizes a Subdivision marker and extracts the
entire id; when several capitals follow the hyphen only the first is
captured (see the counterexample). -/
theorem c8_subdivision_id_amended (ds la rest : List Char) (l : Char) (hds : ds ≠ [])
    (hlen : ds.length ≤ 3) (hdig : ds.all isDigitCh = true)
    (hla : la = [] ∨ ∃ c, la = [c] ∧ isAsciiAlpha c = true)
    (hl : isAsciiAlpha l = true) :
    ∃ h, classifyText (String.mk
        ('S' :: 'u' :: 'b' :: 'd' :: 'i' :: 'v' :: 'i' :: 's' :: 'i' :: 'o' :: 'n' :: ' '::(ds ++ la ++ '-' :: l :: rest)))
      = some { level := .Subdivision, guideType := none,
               identifier := String.mk ((ds ++ la) ++ ['-', l]),
               heading := h } := by
  refine ⟨cleanHeading (sepHeading rest), ?_⟩
  have hne : String.mk
      ('S' :: 'u' :: 'b' :: 'd' :: 'i' :: 'v' :: 'i' :: 's' :: 'i' :: 'o' :: 'n' :: ' '::(ds ++ la ++ '-' :: l :: rest))
      ≠ "" := by
    intro h
    have h2 := congrArg String.data h
    simp at h2
  rw [classifyText, if_neg hne]
  rw [show (String.mk
      ('S' :: 'u' :: 'b' :: 'd' :: 'i' :: 'v' :: 'i' :: 's' :: 'i' :: 'o' :: 'n' :: ' '::(ds ++ la ++ '-' :: l :: rest))).data
      = 'S' :: 'u' :: 'b' :: 'd' :: 'i' :: 'v' :: 'i' :: 's' :: 'i' :: 'o' :: 'n' :: ' '::(ds ++ la ++ '-' :: l :: rest)
      from rfl]
  rw [chapterMatch_S, partMatch_S, divisionMatch_S,
      subdivisionMatch_eval ds la rest l hds hlen hdig hla hl]

/-- Witness for C8 (amended) at "Subdivision 40-B Cost". -/
theorem c8_subdivision_id_witness :
    (['4', '0'] : List Char) ≠ [] ∧ isAsciiAlpha 'B' = true ∧
    ∃ h, classifyText (String.mk
        ('S' :: 'u' :: 'b' :: 'd' :: 'i' :: 'v' :: 'i' :: 's' :: 'i' :: 'o' :: 'n' :: ' '::
          (['4', '0'] ++ [] ++ '-' :: 'B' :: [' ', 'C', 'o', 's', 't'])))
      = some { level := .Subdivision, guideType := none,
               identifier := String.mk ((['4', '0'] ++ []) ++ ['-', 'B']),
               heading := h } :=
  ⟨by decide, by decide,
    c8_subdivision_id_amended ['4', '0'] [] [' ', 'C', 'o', 's', 't'] 'B'
      (by decide) (by decide) (by decide) (Or.inl rfl) (by decide)⟩

/-- C9 (counterexample): `normalize_hyphens` deliberately leaves the em-dash
U+2014 (and U+2015) untouched — its class is only U+2010..U+2013 and `-` —
so for x = "a\u2014b" the output still contains U+2014, a character of the
claimed range U+2010..U+2015. -/
theorem c9_counterexample :
    normalize_hyphens "a\u2014b" = "a\u2014b" ∧
    '\u2014' ∈ (normalize_hyphens "a\u2014b").data := by
  decide

/-- C9 (amended): for every string x and every character c among U+2010,
U+2011, U+2012, U+2013, `normalize_hyphens x` contains no occurrence of c:
those variants (together with ASCII `-`) are collapsed to the ASCII
hyphen-minus, while U+2014 and U+2015 are left unchanged. -/
theorem c9_hyphens_amended (x : String) (c : Char)
    (hc : c = '\u2010' ∨ c = '\u2011' ∨ c = '\u2012' ∨ c = '\u2013') :
    c ∉ (normalize_hyphens x).data := by
  intro hmem
  by_cases hx : x = ""
  · subst hx
    rw [normalize_hyphens, if_pos rfl] at hmem
    rw [show ("" : String).data = [] from rfl] at hmem
    exact List.not_mem_nil c hmem
  · rw [normalize_hyphens, if_neg hx] at hmem
    rw [show (String.mk (normHyphAux false x.data)).data = normHyphAux false x.data from rfl]
      at hmem
    rcases normHyphAux_mem x.data false c hmem with h1 | h1
    · subst h1
      rcases hc with h | h | h | h <;> exact absurd h (by decide)
    · rcases hc with rfl | rfl | rfl | rfl <;> exact absurd h1 (by decide)

/-- Witness for C9 (amended) at x = "a\u2013b", c = U+2013. -/
theorem c9_hyphens_witness :
    ('\u2013' = '\u2010' ∨ '\u2013' = '\u2011' ∨ '\u2013' = '\u2012' ∨ '\u2013' = '\u2013') ∧
    '\u2013' ∉ (normalize_hyphens "a\u2013b").data :=
  ⟨by decide, c9_hyphens_amended "a\u2013b" '\u2013' (by decide)⟩

/-- C10: `extract_html_sections` returns a (dict, ordered keys) pair exactly
when `html_content` is truthy, and the bare empty dict when it is falsy —
two differently shaped values, so a caller that unpacks two results succeeds
exactly on non-empty input. -/
theorem c10_return_shape :
    extract_html_sections none = ExtractResult.bare [] ∧
    ∀ x : Option (List Node),
      (∃ d ks, extract_html_sections x = ExtractResult.pair d ks) ↔ x ≠ none := by
  refine ⟨rfl, ?_⟩
  intro x
  constructor
  · rintro ⟨d, ks, h⟩ rfl
    simp [extract_html_sections] at h
  · intro hx
    rcases x with _ | nodes
    · exact absurd rfl hx
    · exact ⟨_, _, rfl⟩

/-- Witness for C10 at the singleton document. -/
theorem c10_return_shape_witness :
    ∃ d ks, extract_html_sections (some [exIntro]) = ExtractResult.pair d ks :=
  (c10_return_shape.2 (some [exIntro])).mpr (by simp)


/-- The C6 record: a "table of sections" header, three reference lines, and
a definitive (TOC-anchored) heading, all inside one record's markup. -/
def c6Html : String :=
  "<p>Table of sections</p>" ++ "\n" ++
  "<p>40-10 First rule</p>" ++ "\n" ++
  "<p>40-20 Second rule</p>" ++ "\n" ++
  "<p>40-30 Third rule</p>" ++ "\n" ++
  "<p><a id=\"_Toc900\"></a>40-40 Real heading</p>"

def c6Rec : SectionInfo :=
  { structure_type := "Division", heading_text := "Cost base", html := some c6Html }

/-- C6 (code bug): `section_heading_pattern` is anchored at `^` but tested
against `str(tag)`, which always begins with `<p`, so the "stop at a
definitive heading" check of lines 305-308 can never fire: the anchored
heading paragraph matches the reference grammar, is absorbed as a FOURTH
list item, and its paragraph is removed — against the claim (and the code's
own comments and log message) that the walk stops there with exactly three
items.  A record whose header is followed by no matching reference line is
left unchanged, as the claim states. -/
theorem c6_table_normalizer_divergence :
    post_process_table_of_sections [("Division-40", c6Rec)] ["Division-40"]
      = [("Division-40",
          { c6Rec with
            html := some ("<p>Table of sections</p><ul><li>40-10 First rule</li>"
              ++ "<li>40-20 Second rule</li><li>40-30 Third rule</li>"
              ++ "<li>40-40 Real heading</li></ul>" ++ "\n\n\n\n"),
            text_for_embedding := some ("Table of sections 40-10 First rule "
              ++ "40-20 Second rule 40-30 Third rule 40-40 Real heading"),
            char_count := some 88 })] ∧
    post_process_table_of_sections
        [("Division-40",
          { c6Rec with html := some "<p>Table of sections</p>\n<p>Nothing matching here</p>" })]
        ["Division-40"]
      = [("Division-40",
          { c6Rec with html := some "<p>Table of sections</p>\n<p>Nothing matching here</p>" })] := by
  decide

/-! ### Pipeline invariant: claim C4 -/


lemma levelName_section (l : MLevel) (h : levelName l = "Section") : l = MLevel.Section := by
  cases l <;> first | rfl | exact absurd h (by decide)

lemma level5_section (st : String) (h : get_structure_level st = 5) : st = "Section" := by
  unfold get_structure_level at h
  split_ifs at h <;> first | assumption | omega

/-- Every record typed "Section" sits at a key of the form `Section-<id>`. -/
def sectionKeyInv (d : AList) : Prop :=
  ∀ k info, alookup d k = some info → info.structure_type = "Section" →
    ∃ id, k = "Section-" ++ id

lemma sectionKeyInv_aupdate (d : AList) (k : String) (v : SectionInfo)
    (h : sectionKeyInv d)
    (hv : v.structure_type = "Section" → ∃ id, k = "Section-" ++ id) :
    sectionKeyInv (aupdate d k v) := by
  intro k' info h' hst
  by_cases hk : k' = k
  · subst hk
    rw [alookup_aupdate_self] at h'
    injection h' with hvi
    subst hvi
    exact hv hst
  · rw [alookup_aupdate_ne _ _ _ _ hk] at h'
    exact h k' info h' hst

lemma sectionKeyInv_finalize (s : ScanState) (h : sectionKeyInv s.sections) :
    sectionKeyInv (finalizeCurrent s) := by
  rw [finalizeCurrent]
  split
  · cases hl : alookup s.sections s.currentKey with
    | none => exact h
    | some info =>
      refine sectionKeyInv_aupdate _ _ _ h ?_
      intro hst
      exact h s.currentKey info hl hst
  · exact h

lemma openNew_sectionKeyInv (s : ScanState) (n : Node) (m : Marker)
    (h : sectionKeyInv s.sections) : sectionKeyInv (openNew s n m).sections := by
  have hfin := sectionKeyInv_finalize s h
  rw [openNew]
  dsimp only
  split
  · refine sectionKeyInv_aupdate _ _ _ hfin ?_
    intro hst
    have hlvl : levelName m.level = "Section" := by
      by_cases hid : m.identifier ≠ ""
      · rw [if_pos hid] at hst; exact hst
      · rw [if_neg hid] at hst; exact hst
    have hsec := levelName_section _ hlvl
    rw [hsec]
    exact ⟨m.identifier, rfl⟩
  · exact hfin

lemma stepMain_sectionKeyInv (s : ScanState) (n : Node) (text : String)
    (h : sectionKeyInv s.sections) : sectionKeyInv (stepMain s n text).sections := by
  rw [stepMain]
  by_cases hc : ¬ s.inTable ∧ n.name = "p" ∧ pyToLower text = "table of sections"
  · rw [if_pos hc]
    by_cases hk : s.currentKey ≠ "" ∧ s.foundFirst
    · rw [if_pos hk]; exact h
    · rw [if_neg hk]; exact h
  · rw [if_neg hc]
    cases hm : classifyText text with
    | some m => exact openNew_sectionKeyInv s n m h
    | none =>
      dsimp only
      by_cases hk : s.currentKey ≠ "" ∧ s.foundFirst
      · rw [if_pos hk]
        split
        · exact h
        · exact h
      · rw [if_neg hk]; exact h

lemma step_sectionKeyInv (s : ScanState) (n : Node)
    (h : sectionKeyInv s.sections) : sectionKeyInv (step s n).sections := by
  rw [step]
  split
  · exact h
  · by_cases ht : s.inTable
    · rw [if_pos ht]
      split
      · exact stepMain_sectionKeyInv _ _ _ h
      · split
        · exact h
        · exact h
    · rw [if_neg ht]
      exact stepMain_sectionKeyInv _ _ _ h

lemma foldl_sectionKeyInv : ∀ (l : List Node) (s : ScanState),
    sectionKeyInv s.sections → sectionKeyInv (List.foldl step s l).sections := by
  intro l
  induction l with
  | nil => intro s h; exact h
  | cons n rest ih => intro s h; exact ih (step s n) (step_sectionKeyInv s n h)

lemma extract_sectionKeyInv (nodes : List Node) : sectionKeyInv (extractPair nodes).1 := by
  refine sectionKeyInv_finalize _ (foldl_sectionKeyInv nodes initState ?_)
  intro k info h
  cases h

lemma alookup_aerase_some (d : AList) (k k' : String) (info : SectionInfo)
    (h : alookup (aerase d k') k = some info) : alookup d k = some info := by
  by_cases hk : k = k'
  · subst hk; rw [alookup_aerase_self] at h; cases h
  · rw [alookup_aerase_ne _ _ _ hk] at h; exact h

lemma sectionKeyInv_aerase (d : AList) (k' : String) (h : sectionKeyInv d) :
    sectionKeyInv (aerase d k') := by
  intro k info h' hst
  exact h k info (alookup_aerase_some d k k' info h') hst

lemma foldl_aerase_sectionKeyInv : ∀ (ks : List String) (d : AList),
    sectionKeyInv d → sectionKeyInv (ks.foldl (fun dd kk => aerase dd kk) d) := by
  intro ks
  induction ks with
  | nil => intro d h; exact h
  | cons a as ih => intro d h; exact ih (aerase d a) (sectionKeyInv_aerase d a h)

lemma guidesAux_sectionKeyInv : ∀ (ks : List String) (d : AList) (acc : List String),
    sectionKeyInv d → sectionKeyInv (guidesAux d ks acc).1 := by
  intro ks
  induction ks with
  | nil => intro d acc h; exact h
  | cons k1 rest ih =>
    intro d acc h
    cases rest with
    | nil => exact h
    | cons k2 rest' =>
      rw [guidesAux]
      by_cases hg : pyStartsWith k1 "Guide to "
      · rw [if_pos hg]
        cases h1 : alookup d k1 with
        | none => exact ih d acc h
        | some guide =>
          cases h2 : alookup d k2 with
          | none => exact ih d (acc ++ [k1]) h
          | some target =>
            dsimp only
            by_cases hh : guide.html.getD "" ≠ ""
            · rw [if_pos hh]
              refine ih _ (acc ++ [k1]) (sectionKeyInv_aupdate _ _ _ h ?_)
              intro hst
              exact h k2 target h2 hst
            · rw [if_neg hh]
              exact ih d (acc ++ [k1]) h
      · rw [if_neg hg]
        exact ih d acc h

lemma guides_sectionKeyInv (d : AList) (ok : List String) (h : sectionKeyInv d) :
    sectionKeyInv (post_process_guides d ok) := by
  rw [post_process_guides]
  exact foldl_aerase_sectionKeyInv _ _ (guidesAux_sectionKeyInv ok d [] h)

lemma table_sectionKeyInv (d : AList) (ok : List String) (h : sectionKeyInv d) :
    sectionKeyInv (post_process_table_of_sections d ok) := by
  rw [post_process_table_of_sections]
  induction ok generalizing d with
  | nil => exact h
  | cons key rest ih =>
    rw [List.foldl_cons]
    refine ih _ ?_
    cases hl : alookup d key with
    | none => exact h
    | some sec =>
      dsimp only
      cases hh : sec.html with
      | none => exact h
      | some hstr =>
        dsimp only
        by_cases he : hstr = ""
        · rw [if_pos he]; exact h
        · rw [if_neg he]
          cases hp : processTable hstr with
          | none => exact h
          | some newHtml =>
            refine sectionKeyInv_aupdate _ _ _ h ?_
            intro hst
            exact h key sec hl hst

lemma finalize_sections_nil (s : ScanState) (h : s.sections = []) :
    finalizeCurrent s = [] := by
  rw [finalizeCurrent]
  split
  · rw [h]
    rfl
  · exact h

lemma openNew_keys_inv (s : ScanState) (n : Node) (m : Marker)
    (h : s.sections ≠ [] → s.orderedKeys ≠ []) :
    (openNew s n m).sections ≠ [] → (openNew s n m).orderedKeys ≠ [] := by
  rw [openNew]
  dsimp only
  split
  · intro _
    simp
  · intro hne
    refine h ?_
    intro hnil
    exact hne (finalize_sections_nil s hnil)

lemma stepMain_keys_inv (s : ScanState) (n : Node) (text : String)
    (h : s.sections ≠ [] → s.orderedKeys ≠ []) :
    (stepMain s n text).sections ≠ [] → (stepMain s n text).orderedKeys ≠ [] := by
  rw [stepMain]
  by_cases hc : ¬ s.inTable ∧ n.name = "p" ∧ pyToLower text = "table of sections"
  · rw [if_pos hc]
    by_cases hk : s.currentKey ≠ "" ∧ s.foundFirst
    · rw [if_pos hk]; exact h
    · rw [if_neg hk]; exact h
  · rw [if_neg hc]
    cases hm : classifyText text with
    | some m => exact openNew_keys_inv s n m h
    | none =>
      dsimp only
      by_cases hk : s.currentKey ≠ "" ∧ s.foundFirst
      · rw [if_pos hk]
        split
        · exact h
        · exact h
      · rw [if_neg hk]; exact h

lemma step_keys_inv (s : ScanState) (n : Node)
    (h : s.sections ≠ [] → s.orderedKeys ≠ []) :
    (step s n).sections ≠ [] → (step s n).orderedKeys ≠ [] := by
  rw [step]
  split
  · exact h
  · by_cases ht : s.inTable
    · rw [if_pos ht]
      split
      · exact stepMain_keys_inv _ _ _ h
      · split
        · exact h
        · exact h
    · rw [if_neg ht]
      exact stepMain_keys_inv _ _ _ h

lemma foldl_keys_inv : ∀ (l : List Node) (s : ScanState),
    (s.sections ≠ [] → s.orderedKeys ≠ []) →
    ((List.foldl step s l).sections ≠ [] → (List.foldl step s l).orderedKeys ≠ []) := by
  intro l
  induction l with
  | nil => intro s h; exact h
  | cons n rest ih => intro s h; exact ih (step s n) (step_keys_inv s n h)

lemma extract_keys_nonempty (nodes : List Node) (h : (extractPair nodes).1 ≠ []) :
    (extractPair nodes).2 ≠ [] := by
  refine foldl_keys_inv nodes initState (fun hne => absurd rfl hne) ?_
  intro hnil
  exact h (finalize_sections_nil _ hnil)

/-- C4: every record of the full pipeline's output (extraction, table
normalization, guide merging, consolidation, with the main program's
non-empty guard) has structure_type "Section" and a key of the form
`Section-<id>`; no Chapter/Part/Division/Subdivision/Guide key survives —
including a Guide the merger failed to remove, which the consolidator skips
(its level 0 falls outside both the push range 1-4 and the emit level 5). -/
theorem c4_only_sections_survive (nodes : List Node) (k : String) (out : SectionInfo)
    (h : alookup (pipelineRun nodes) k = some out) :
    out.structure_type = "Section" ∧ ∃ id, k = "Section-" ++ id := by
  rw [pipelineRun] at h
  by_cases hne : (extractPair nodes).1 ≠ [] ∧ (extractPair nodes).2 ≠ []
  · rw [if_pos hne] at h
    have hinv : sectionKeyInv (post_process_guides
        (post_process_table_of_sections (extractPair nodes).1 (extractPair nodes).2)
        (extractPair nodes).2) :=
      guides_sectionKeyInv _ _ (table_sectionKeyInv _ _ (extract_sectionKeyInv nodes))
    obtain ⟨rec, stack, hrec, hchain, h5, hout⟩ :=
      consolidateAux_lookup _ _ [] [] List.chain'_nil
        (fun k' out' h' => by cases h') k out h
    have hsec : rec.structure_type = "Section" := level5_section _ h5
    refine ⟨?_, hinv k rec hrec hsec⟩
    rw [hout]
    exact hsec
  · rw [if_neg hne] at h
    by_cases hd : (extractPair nodes).1 = []
    · rw [hd] at h
      cases h
    · exact absurd ⟨hd, extract_keys_nonempty nodes hd⟩ hne


def c4OutW : SectionInfo :=
  { structure_type := "Section", heading_text := "Meaning of assessable income",
    full_id := some "40-25", primary_id := some "40", secondary_id := some "25",
    html := some (exPart11.html ++ "\n" ++ exDiv1.html ++ "\n" ++ exS4025.html ++ "\n"
      ++ exBody.html),
    text_for_embedding := some ("Part 1-1 General Division 1 Preliminary "
      ++ "40-25 Meaning of assessable income Some body text"),
    char_count := some 89 }

/-- Witness for C4 at the example document. -/
theorem c4_only_sections_witness :
    alookup (pipelineRun exampleNodes) "Section-40-25" = some c4OutW ∧
    (c4OutW.structure_type = "Section" ∧ ∃ id, "Section-40-25" = "Section-" ++ id) :=
  ⟨by decide, c4_only_sections_survive exampleNodes "Section-40-25" c4OutW (by decide)⟩

end HtmlParser
